import Mathlib

/-!
Verification of the TicTacToe federated game server.

The development shallowly embeds the TypeScript sources:
* `src/models/GameState.ts`  — the per-session game engine (`GameState`),
* `src/services/TicTacToeService.ts` — the session store (`Store`),
* `src/services/WebSocketFederationService.ts` — the federation service,
* the gateway (`GameServer`) — join / move / leave / disconnect handling.

Boards are modelled as total functions `Int → Int → Option PlayerSymbol`; only
in-bounds cells are ever read or written, mirroring the guarded array
accesses of the source.  JavaScript `Map`s are modelled as association
lists; timestamps are natural numbers.
-/

/-- Player symbols (`PlayerSymbol` in `MessageTypes`). -/
inductive PlayerSymbol : Type
  | X : PlayerSymbol
  | O : PlayerSymbol
deriving DecidableEq, Repr

/-- The symbol of the other side. -/
def PlayerSymbol.other : PlayerSymbol → PlayerSymbol
  | PlayerSymbol.X => PlayerSymbol.O
  | PlayerSymbol.O => PlayerSymbol.X

/-- Game status (`GameStatus`). -/
inductive GStatus : Type
  | WAITING : GStatus
  | PLAYING : GStatus
  | FINISHED : GStatus
deriving DecidableEq, Repr

/-- Game result (`GameResult`). -/
inductive GResult : Type
  | ONGOING : GResult
  | WIN : GResult
  | DRAW : GResult
deriving DecidableEq, Repr

/-- A player record (`Player.ts`): id, assigned symbol and owning server. -/
structure Player : Type where
  id : String
  symbol : PlayerSymbol
  serverId : String
deriving DecidableEq, Repr

/-- The state of one game session (`GameState.ts`).  The board is an
`N × N` grid of `Option PlayerSymbol`; `none` is an empty cell. -/
structure GameState : Type where
  id : String
  boardSize : Nat
  board : Int → Int → Option PlayerSymbol
  status : GStatus
  players : List Player
  winner : Option PlayerSymbol
  nextTurn : Option PlayerSymbol
  result : GResult
  winningLine : Option (List Int)
  winningLength : Nat
  createdAt : Option Nat
  updatedAt : Option Nat

/-- The empty board: every cell `null`. -/
def emptyBoard : Int → Int → Option PlayerSymbol := fun _ _ => none

/-- The `GameState` constructor.  Note that it assigns the private
backing field `_winningLength` directly, without going through the
clamping `winningLength` setter. -/
def mkGameState (id : String) (boardSize : Nat) (winningLength : Nat)
    (now : Nat) : GameState :=
  { id := id
    boardSize := boardSize
    board := emptyBoard
    status := GStatus.WAITING
    players := []
    winner := none
    nextTurn := none
    result := GResult.ONGOING
    winningLine := none
    winningLength := winningLength
    createdAt := some now
    updatedAt := some now }

/-- The `winningLength` setter: clamps the value into `[3, boardSize]`.
Dead code in the source — no caller ever assigns through the setter. -/
def setWinningLength (g : GameState) (value : Nat) : GameState :=
  { g with winningLength := max 3 (min g.boardSize value) }

/-- `GameState.isFull`: exactly two players. -/
def gsIsFull (g : GameState) : Bool :=
  g.players.length = 2

/-- `GameState.hasPlayer`. -/
def gsHasPlayer (g : GameState) (playerId : String) : Bool :=
  g.players.any (fun p => p.id = playerId)

/-- `GameState.getPlayer`. -/
def gsGetPlayer (g : GameState) (playerId : String) : Option Player :=
  g.players.find? (fun p => p.id = playerId)

/-- The symbol assignment of `GameState.addPlayer`: `X` if unclaimed,
else `O` if unclaimed, else keep the symbol the player object was
constructed with.  (`addPlayer` rejects when full or already present;
`none` models the `false` return, the session left unchanged.) -/
def assignSymbol (g : GameState) (p : Player) : PlayerSymbol :=
  if ¬ g.players.any (fun q => q.symbol = PlayerSymbol.X) then PlayerSymbol.X
  else if ¬ g.players.any (fun q => q.symbol = PlayerSymbol.O) then PlayerSymbol.O
  else p.symbol

/-- The roster produced by a successful `addPlayer`. -/
def addedPlayers (g : GameState) (p : Player) : List Player :=
  g.players ++ [{ p with symbol := assignSymbol g p }]

/-- `GameState.addPlayer`, continued: push the (re-symbolled) player
and start the game when the pair is complete. -/
def gsAddPlayer (g : GameState) (p : Player) (now : Nat) : Option GameState :=
  if gsIsFull g then none
  else if gsHasPlayer g p.id then none
  else
    let g₁ : GameState :=
      { g with players := addedPlayers g p, updatedAt := some now }
    if gsIsFull g₁ then
      some { g₁ with status := GStatus.PLAYING, nextTurn := some PlayerSymbol.X }
    else
      some g₁

/-- `GameState.removePlayer`: filter the player out. -/
def gsRemovePlayer (g : GameState) (playerId : String) (now : Nat) : GameState :=
  { g with players := g.players.filter (fun p => ¬ p.id = playerId)
           updatedAt := some now }

/-- One arm of `checkDirection`'s while loops: starting at `(r, c)`,
collect linear indices `r*n + c` while the cell is in bounds and holds
`sym`, stepping by `(dr, dc)`.  The fuel argument only bounds the
recursion; along a direction with `(dr, dc) ≠ (0, 0)` the run of
in-bounds same-symbol cells starting one step away from an in-bounds
center has fewer than `n` cells, so fuel `n` never truncates the walk
and the list equals the one computed by the unbounded source loop. -/
def walk (board : Int → Int → Option PlayerSymbol) (n : Int) (sym : PlayerSymbol)
    (dr dc : Int) : Nat → Int → Int → List Int
  | 0, _, _ => []
  | Nat.succ fuel, r, c =>
    if 0 ≤ r ∧ r < n ∧ 0 ≤ c ∧ c < n ∧ board r c = some sym then
      (r * n + c) :: walk board n sym dr dc fuel (r + dr) (c + dc)
    else []

/-- The full list of positions accumulated by `checkDirection` for
direction `(dr, dc)` through the cell `(row, col)`: the maximal
contiguous run of `sym`-cells through `(row, col)` along that line,
listed from the negative end to the positive end. -/
def lineThrough (board : Int → Int → Option PlayerSymbol) (n : Nat) (sym : PlayerSymbol)
    (row col dr dc : Int) : List Int :=
  let ni : Int := (n : Int)
  let pos := walk board ni sym dr dc n (row + dr) (col + dc)
  let neg := walk board ni sym (-dr) (-dc) n (row - dr) (col - dc)
  neg.reverse ++ (row * ni + col) :: pos

/-- `checkDirection`: return the accumulated positions when the run
reaches the winning length, else `null`. -/
def checkDirection (board : Int → Int → Option PlayerSymbol) (n k : Nat) (sym : PlayerSymbol)
    (row col : Int) (d : Int × Int) : Option (List Int) :=
  let ps := lineThrough board n sym row col d.1 d.2
  if k ≤ ps.length then some ps else none

/-- The four scanned directions, in source order:
horizontal, vertical, diagonal `\`, diagonal `/`. -/
def directions : List (Int × Int) := [(0, 1), (1, 0), (1, 1), (1, -1)]

/-- Ascending numeric sort, modelling `positions.sort((a, b) => a - b)`. -/
def sortAsc (l : List Int) : List Int :=
  List.insertionSort (fun a b => a ≤ b) l

/-- `checkWinWithLastMove`: read the symbol at the just-placed cell and
return the first direction's qualifying run, sorted ascending.  `none`
models `hasWinner: false`. -/
def checkWinWithLastMove (board : Int → Int → Option PlayerSymbol) (n k : Nat)
    (row col : Int) : Option (PlayerSymbol × List Int) :=
  match board row col with
  | none => none
  | some sym =>
    match directions.findSome? (checkDirection board n k sym row col) with
    | some ps => some (sym, sortAsc ps)
    | none => none

/-- `isBoardFull`: no empty cell on the `n × n` grid. -/
def isBoardFull (board : Int → Int → Option PlayerSymbol) (n : Nat) : Bool :=
  (List.range n).all (fun r =>
    (List.range n).all (fun c => (board (r : Int) (c : Int)).isSome))

/-- The mutations of `makeMove` after all guards pass: place the mark,
bump `updatedAt`, toggle `nextTurn`. -/
def placeMove (g : GameState) (player : Player) (row col : Int) (now : Nat) :
    GameState :=
  { g with
    board := fun r c =>
      if r = row ∧ c = col then some player.symbol else g.board r c
    updatedAt := some now
    nextTurn := if g.nextTurn = some PlayerSymbol.X then some PlayerSymbol.O else some PlayerSymbol.X }

/-- The win/draw bookkeeping at the end of `makeMove`. -/
def finishMove (g : GameState) (player : Player) (row col : Int) (now : Nat) :
    GameState :=
  let g₁ := placeMove g player row col now
  match checkWinWithLastMove g₁.board g.boardSize g.winningLength row col with
  | some wl =>
    { g₁ with status := GStatus.FINISHED, result := GResult.WIN
              winner := some wl.1, winningLine := some wl.2 }
  | none =>
    if isBoardFull g₁.board g.boardSize then
      { g₁ with status := GStatus.FINISHED, result := GResult.DRAW }
    else g₁

/-- `GameState.makeMove`.  `none` models the `false` return: a guard
failed and the session is unchanged.  The guards appear in source
order: status/result, player lookup, turn, bounds and emptiness. -/
def gsMakeMove (g : GameState) (playerId : String) (row col : Int)
    (now : Nat) : Option GameState :=
  if ¬ (g.status = GStatus.PLAYING ∧ g.result = GResult.ONGOING) then none
  else
    match gsGetPlayer g playerId with
    | none => none
    | some player =>
      if ¬ (g.nextTurn = some player.symbol) then none
      else if row < 0 ∨ (g.boardSize : Int) ≤ row ∨ col < 0 ∨
          (g.boardSize : Int) ≤ col ∨ (g.board row col).isSome then none
      else
        some (finishMove g player row col now)

/-- The broadcast payload of `getStateSummary`. -/
structure StateSummary : Type where
  board : Int → Int → Option PlayerSymbol
  nextTurn : PlayerSymbol
  winner : Option PlayerSymbol
  players : List (String × PlayerSymbol)
  status : GStatus
  result : GResult
  winningLine : Option (List Int)

/-- `GameState.getStateSummary`. -/
def getStateSummary (g : GameState) : StateSummary :=
  { board := g.board
    nextTurn := g.nextTurn.getD PlayerSymbol.X
    winner := g.winner
    players := g.players.map (fun p => (p.id, p.symbol))
    status := g.status
    result := g.result
    winningLine := g.winningLine }

/-! ### The session store (`TicTacToeService.ts`) -/

/-- Look up a key in an association list (a JavaScript `Map.get`). -/
def lookupKV {α : Type} (l : List (String × α)) (k : String) : Option α :=
  (l.find? (fun kv => kv.1 = k)).map (fun kv => kv.2)

/-- `Map.set`: replace the value under an existing key, else append. -/
def setKV {α : Type} (l : List (String × α)) (k : String) (v : α) :
    List (String × α) :=
  if l.any (fun kv => kv.1 = k) then
    l.map (fun kv => if kv.1 = k then (k, v) else kv)
  else l ++ [(k, v)]

/-- `Map.delete`. -/
def delKV {α : Type} (l : List (String × α)) (k : String) :
    List (String × α) :=
  l.filter (fun kv => ¬ kv.1 = k)

/-- The two maps owned by `TicTacToeService`: `games` (gameId → state)
and `playerToGame` (playerId → gameId). -/
structure Store : Type where
  games : List (String × GameState)
  playerToGame : List (String × String)

/-- The freshly constructed service: both maps empty. -/
def emptyStore : Store := { games := [], playerToGame := [] }

/-- `getGame`. -/
def lookupGame (s : Store) (gameId : String) : Option GameState :=
  lookupKV s.games gameId

/-- `playerToGame.get`. -/
def lookupP2G (s : Store) (playerId : String) : Option String :=
  lookupKV s.playerToGame playerId

/-- `createGame`: construct a fresh session and register it.  The
source draws `gameId` from `uuidv4()`; it is a parameter here. -/
def createGame (s : Store) (gameId : String) (boardSize winningLength : Nat)
    (now : Nat) : Store :=
  { s with
    games := setKV s.games gameId (mkGameState gameId boardSize winningLength now) }

/-- `getActiveGames`: the sessions whose status is Waiting or Playing. -/
def getActiveGames (s : Store) : List GameState :=
  (s.games.map (fun kv => kv.2)).filter
    (fun g => g.status = GStatus.WAITING ∨ g.status = GStatus.PLAYING)

/-- The tail of `addPlayerToGame` after the player-mapping checks:
construct the `Player`, add it to the session, and register the
player → game mapping.  `(·, some msg)` models the error returns. -/
def addPlayerCore (s : Store) (gameId : String) (game : GameState)
    (playerId : String) (playerSymbol : Option PlayerSymbol)
    (serverId : Option String) (now : Nat) : Store × Option String :=
  let player : Player :=
    { id := playerId
      symbol := playerSymbol.getD PlayerSymbol.X
      serverId := serverId.getD "unknown" }
  match gsAddPlayer game player now with
  | none => (s, some "Unable to add player to game")
  | some game₁ =>
    ({ games := setKV s.games gameId game₁
       playerToGame := setKV s.playerToGame playerId gameId }, none)

/-- `addPlayerToGame`.  The second component is the error message
(`none` means success). -/
def addPlayerToGame (s : Store) (gameId playerId : String)
    (playerSymbol : Option PlayerSymbol) (serverId : Option String)
    (now : Nat) : Store × Option String :=
  match lookupGame s gameId with
  | none => (s, some "Game not found")
  | some game =>
    if game.status = GStatus.FINISHED then
      (s, some "Game is already finished")
    else
      match lookupP2G s playerId with
      | some existingGameId =>
        if ¬ existingGameId = gameId then
          let canRelease : Bool :=
            match lookupGame s existingGameId with
            | none => true
            | some existing =>
              existing.status = GStatus.FINISHED ∨ existing.players.length = 0
          if ¬ canRelease then (s, some "Player is already in another game")
          else
            addPlayerCore
              { s with playerToGame := delKV s.playerToGame playerId }
              gameId game playerId playerSymbol serverId now
        else
          (s, none)
      | none => addPlayerCore s gameId game playerId playerSymbol serverId now

/-- The result of the service-level `makeMove`. -/
inductive MoveRes : Type
  | err : String → MoveRes
  | ok : Bool → MoveRes
deriving DecidableEq, Repr

/-- `TicTacToeService.makeMove`: resolve the session, delegate to the
engine, report `isGameFinished`. -/
def svcMakeMove (s : Store) (gameId playerId : String) (row col : Int)
    (now : Nat) : Store × MoveRes :=
  match lookupGame s gameId with
  | none => (s, MoveRes.err "Game not found")
  | some game =>
    match gsMakeMove game playerId row col now with
    | none => (s, MoveRes.err "Invalid move")
    | some game₁ =>
      ({ s with games := setKV s.games gameId game₁ },
       MoveRes.ok (game₁.status = GStatus.FINISHED))

/-- `removePlayerFromGame`: resolve via the player → game mapping,
remove the player from that session, clear the mapping.  The second
component is the id of the affected session (`none` models the `null`
return). -/
def removePlayerFromGame (s : Store) (playerId : String) (now : Nat) :
    Store × Option String :=
  match lookupP2G s playerId with
  | none => (s, none)
  | some gameId =>
    match lookupGame s gameId with
    | none => (s, none)
    | some game =>
      ({ games := setKV s.games gameId (gsRemovePlayer game playerId now)
         playerToGame := delKV s.playerToGame playerId }, some gameId)

/-- The sweep condition of `cleanupFinishedGames`:
`status === FINISHED && updatedAt && updatedAt < cutoffTime`. -/
def sweepable (g : GameState) (cutoff : Nat) : Bool :=
  g.status = GStatus.FINISHED &&
    (match g.updatedAt with
     | some t => decide (t < cutoff)
     | none => false)

/-- The loop body of `cleanupFinishedGames`: walk the (original) list
of entries, deleting each swept session and the mappings of the players
still on its roster. -/
def cleanupGo (cutoff : Nat) (acc : Store) (cnt : Nat) :
    List (String × GameState) → Store × Nat
  | [] => (acc, cnt)
  | kv :: rest =>
    if sweepable kv.2 cutoff then
      cleanupGo cutoff
        { games := delKV acc.games kv.1
          playerToGame :=
            kv.2.players.foldl (fun m p => delKV m p.id) acc.playerToGame }
        (cnt + 1) rest
    else cleanupGo cutoff acc cnt rest

/-- `cleanupFinishedGames`: purge Finished sessions older than the
cutoff together with the mappings of their rostered players. -/
def cleanupFinishedGames (s : Store) (cutoff : Nat) : Store × Nat :=
  cleanupGo cutoff s 0 s.games

/-! ### The federation service (`WebSocketFederationService.ts`) -/

/-- One entry of an `available_games` snapshot / of the
`globalAvailableGames` cache. -/
structure AvailEntry : Type where
  serverId : String
  gameId : String
  playerCount : Nat
deriving DecidableEq, Repr

/-- The federation service's own state: local server id, the
`isFederated` flag, the live peer set (keys of `connectedServers`) and
the `globalAvailableGames` cache (gameId → entry). -/
structure FedState : Type where
  serverId : String
  isFederated : Bool
  peers : List String
  cache : List (String × AvailEntry)

/-- An outbound federation message. -/
inductive FedMsg : Type
  | playerJoined : String → PlayerSymbol → String → String → String → FedMsg
  | moveMsg : String → Int → Int → String → String → String → FedMsg
  | playerLeft : String → String → String → String → FedMsg
  | availableGames : List AvailEntry → String → String → FedMsg
deriving DecidableEq, Repr

/-- Whether a federation message is an `available_games` snapshot. -/
def FedMsg.isAvailMsg : FedMsg → Bool
  | FedMsg.availableGames _ _ _ => true
  | _ => false

/-- An inbound federation gossip event (after JSON decoding). -/
inductive FedEvent : Type
  | playerJoined : String → PlayerSymbol → String → FedEvent
  | moveEv : String → Int → Int → String → FedEvent
  | playerLeft : String → String → FedEvent
  | availableGames : List AvailEntry → FedEvent
deriving DecidableEq, Repr

/-- `isFederationActive`. -/
def isFederationActive (f : FedState) : Bool :=
  f.isFederated && ¬ f.peers.length = 0

/-- `broadcastFederationMessage`: send to every live peer (best
effort).  Returns the list of (peer, message) sends. -/
def broadcastFederationMessage (f : FedState) (m : FedMsg) :
    List (String × FedMsg) :=
  if ¬ f.isFederated then [] else f.peers.map (fun p => (p, m))

/-- The snapshot sent by `broadcastAvailableGames`: active sessions
with exactly one player. -/
def availSnapshot (s : Store) (serverId : String) : List AvailEntry :=
  ((getActiveGames s).filter (fun g => g.players.length = 1)).map
    (fun g => { serverId := serverId, gameId := g.id,
                playerCount := g.players.length })

/-- `broadcastAvailableGames`: broadcast the snapshot — unless it is
empty, in which case nothing at all is sent. -/
def broadcastAvailableGames (s : Store) (f : FedState) :
    List (String × FedMsg) :=
  if ¬ f.isFederated ∨ f.peers.length = 0 then []
  else
    let avail := availSnapshot s f.serverId
    if avail.length = 0 then []
    else broadcastFederationMessage f
      (FedMsg.availableGames avail f.serverId f.serverId)

/-- `broadcastPlayerJoined`: the PlayerJoined gossip followed by a
refresh of the availability snapshot. -/
def broadcastPlayerJoined (s : Store) (f : FedState) (playerId : String)
    (sym : PlayerSymbol) (gameId : Option String) : List (String × FedMsg) :=
  if ¬ f.isFederated ∨ f.peers.length = 0 then []
  else
    broadcastFederationMessage f
      (FedMsg.playerJoined playerId sym f.serverId (gameId.getD "") f.serverId)
    ++ broadcastAvailableGames s f

/-- `broadcastMove`. -/
def broadcastMove (f : FedState) (playerId : String) (row col : Int)
    (gameId : Option String) : List (String × FedMsg) :=
  if ¬ f.isFederated ∨ f.peers.length = 0 then []
  else
    broadcastFederationMessage f
      (FedMsg.moveMsg playerId row col f.serverId (gameId.getD "") f.serverId)

/-- `broadcastPlayerLeft`. -/
def broadcastPlayerLeft (f : FedState) (playerId : String)
    (gameId : Option String) : List (String × FedMsg) :=
  if ¬ f.isFederated ∨ f.peers.length = 0 then []
  else
    broadcastFederationMessage f
      (FedMsg.playerLeft playerId f.serverId (gameId.getD "") f.serverId)

/-- `handleFederationMessage`: drop messages originating here (loop
suppression); apply Move via the store's move operation and PlayerLeft
via the store's removal; merely acknowledge PlayerJoined (the handler
only logs — it does not touch the store); replace the sender's cache
slice on an AvailableGames snapshot.  The second component is the list
of messages sent back out to peers: always empty — received gossip is
never re-broadcast. -/
def handleFederationMessage (s : Store) (f : FedState)
    (originServer fromServerId : String) (ev : FedEvent) (now : Nat) :
    (Store × FedState) × List (String × FedMsg) :=
  if originServer = f.serverId then ((s, f), [])
  else
    match ev with
    | FedEvent.playerJoined _ _ _ => ((s, f), [])
    | FedEvent.moveEv playerId row col gameId =>
      (((svcMakeMove s gameId playerId row col now).1, f), [])
    | FedEvent.playerLeft playerId _ =>
      (((removePlayerFromGame s playerId now).1, f), [])
    | FedEvent.availableGames games =>
      let cache₁ := f.cache.filter (fun kv => ¬ kv.2.serverId = fromServerId)
      let cache₂ := games.foldl (fun m e => setKV m e.gameId e) cache₁
      ((s, { f with cache := cache₂ }), [])

/-! ### The gateway (`GameServer`) -/

/-- A message the gateway emits towards clients (plus the federation
notifications it triggers).  `update` stands for the Update broadcast
of `broadcastGameState` to the session's rostered players. -/
inductive GwEvent : Type
  | update : String → StateSummary → GwEvent
  | gameCancelled : String → String → String → GwEvent
  | fedPlayerLeft : String → String → GwEvent

/-- `broadcastGameState`: look up the session and emit one Update of
its summary (delivered to each rostered player's socket). -/
def broadcastUpdate (s : Store) (gameId : String) : List GwEvent :=
  match lookupGame s gameId with
  | none => []
  | some g => [GwEvent.update gameId (getStateSummary g)]

/-- The mid-game reset performed by `handleLeave` when a player leaves
a Playing session: back to Waiting, roster emptied, board cleared. -/
def resetGame (g : GameState) : GameState :=
  { g with status := GStatus.WAITING
           players := []
           nextTurn := none
           winner := none
           result := GResult.ONGOING
           board := emptyBoard }

/-- `cleanupClient` for a connection whose tracked session is
`trackedGid` and whose registered player is `playerId`: remove the
player via the store; if the session it was in is still Playing, mark
it Finished with result left Ongoing and send GameCancelled to the
remaining opponent; otherwise re-broadcast the tracked session's state.
Finally notify federation. -/
def cleanupClient (s : Store) (trackedGid : Option String)
    (playerId : String) (fedActive : Bool) (now : Nat) :
    Store × List GwEvent :=
  match trackedGid with
  | none => (s, [])
  | some gameId =>
    let r := removePlayerFromGame s playerId now
    let fedEvs : List GwEvent :=
      if fedActive then [GwEvent.fedPlayerLeft playerId gameId] else []
    match r.2 with
    | some foundGid =>
      match lookupGame r.1 foundGid with
      | some g₁ =>
        if g₁.status = GStatus.PLAYING then
          let g₂ := { g₁ with status := GStatus.FINISHED
                              result := GResult.ONGOING }
          let s₂ := { r.1 with games := setKV r.1.games foundGid g₂ }
          let cancelEvs : List GwEvent :=
            match g₂.players.head? with
            | some opponent =>
              [GwEvent.gameCancelled opponent.id g₂.id
                "Opponent disconnected. Returning to lobby."]
            | none => []
          (s₂, cancelEvs ++ fedEvs)
        else (r.1, broadcastUpdate r.1 gameId ++ fedEvs)
      | none => (r.1, broadcastUpdate r.1 gameId ++ fedEvs)
    | none => (r.1, broadcastUpdate r.1 gameId ++ fedEvs)

/-- `handleDisconnect`: a socket closed without an explicit Leave. -/
def gwDisconnect (s : Store) (trackedGid : Option String)
    (playerId : String) (fedActive : Bool) (now : Nat) :
    Store × List GwEvent :=
  cleanupClient s trackedGid playerId fedActive now

/-- `handleLeave` for a connection tracked against session `gameId`:
remove the player; if the session was Playing, reset it wholesale to
Waiting (roster emptied, board cleared); broadcast the resulting state;
notify federation; then run the disconnect cleanup (whose removal is a
no-op because the mapping is already gone). -/
def gwLeave (s : Store) (gameId playerId : String) (fedActive : Bool)
    (now : Nat) : Store × List GwEvent :=
  let game₀ := lookupGame s gameId
  let wasPlaying : Bool :=
    match game₀ with
    | some g => g.status = GStatus.PLAYING
    | none => false
  let s₁ := (removePlayerFromGame s playerId now).1
  let s₂ :=
    if wasPlaying ∧ game₀.isSome then
      match lookupGame s₁ gameId with
      | some g₁ => { s₁ with games := setKV s₁.games gameId (resetGame g₁) }
      | none => s₁
    else s₁
  let evs₁ := broadcastUpdate s₂ gameId
  let evs₂ : List GwEvent :=
    if fedActive then [GwEvent.fedPlayerLeft playerId gameId] else []
  let tail := cleanupClient s₂ (some gameId) playerId fedActive now
  (tail.1, evs₁ ++ evs₂ ++ tail.2)

/-- `findAvailableGame`: a local one-player active session first, then
a local zero-player one, then a one-player entry of the federation
cache as a `redirect:<server>:<game>` pseudo-id. -/
def findAvailableGame (s : Store) (fed : Option FedState) : Option String :=
  let active := getActiveGames s
  match (active.filter (fun g => g.players.length = 1)).head? with
  | some g => some g.id
  | none =>
    match (active.filter (fun g => g.players.length = 0)).head? with
    | some g => some g.id
    | none =>
      match fed with
      | some f =>
        if isFederationActive f then
          match f.cache.find? (fun kv => kv.2.playerCount = 1) with
          | some kv =>
            some ("redirect:" ++ kv.2.serverId ++ ":" ++ kv.1)
          | none => none
        else none
      | none => none

/-! ### Reachable store states

Every mutation of the two service maps in the source goes through one
of the operations below: `createGame` (also reached from `handleJoin`'s
auto-create), `addPlayerToGame`, the service `makeMove` (also invoked
by the federation Move handler), `removePlayerFromGame` (also invoked
by the federation PlayerLeft handler), the periodic sweep, and the two
gateway paths `handleLeave` / disconnect-cleanup which additionally
mutate session fields directly. -/

/-- One store-mutating operation. -/
inductive Step : Type
  | create : String → Nat → Nat → Nat → Step
  | join : String → String → Option PlayerSymbol → Option String → Nat → Step
  | moveStep : String → String → Int → Int → Nat → Step
  | leaveSvc : String → Nat → Step
  | sweep : Nat → Step
  | gwLeaveStep : String → String → Bool → Nat → Step
  | gwDisconnectStep : Option String → String → Bool → Nat → Step

/-- Apply one operation to the store. -/
def applyStep (s : Store) : Step → Store
  | Step.create gid n k now => createGame s gid n k now
  | Step.join gid pid pref srv now =>
    (addPlayerToGame s gid pid pref srv now).1
  | Step.moveStep gid pid row col now => (svcMakeMove s gid pid row col now).1
  | Step.leaveSvc pid now => (removePlayerFromGame s pid now).1
  | Step.sweep cutoff => (cleanupFinishedGames s cutoff).1
  | Step.gwLeaveStep gid pid fedA now => (gwLeave s gid pid fedA now).1
  | Step.gwDisconnectStep tracked pid fedA now =>
    (gwDisconnect s tracked pid fedA now).1

/-- Apply a list of operations in order. -/
def applySteps (s : Store) (ops : List Step) : Store :=
  ops.foldl applyStep s

/-- A store state is reachable when some sequence of operations
produces it from the freshly constructed service. -/
def ReachableStore (s : Store) : Prop :=
  ∃ ops : List Step, s = applySteps emptyStore ops

/-- The move precondition list as the spec words it (§4.1): session
Playing with result Ongoing, mover present, mover's symbol equals the
turn, coordinates within `[0, N)`, target cell empty. -/
def moveAllowedSpec (g : GameState) (playerId : String) (row col : Int) :
    Bool :=
  (g.status = GStatus.PLAYING) && (g.result = GResult.ONGOING) &&
  (match gsGetPlayer g playerId with
   | none => false
   | some p =>
     (g.nextTurn = some p.symbol) &&
     decide (0 ≤ row ∧ row < (g.boardSize : Int) ∧
             0 ≤ col ∧ col < (g.boardSize : Int)) &&
     (g.board row col).isNone)

/-! ### Concrete scenarios used in witnesses and counterexamples -/

/-- The first joiner of the concrete scenarios (assigned X). -/
def playerP1 : Player :=
  { id := "p1", symbol := PlayerSymbol.X, serverId := "Server1" }

/-- The second joiner of the concrete scenarios (assigned O). -/
def playerP2 : Player :=
  { id := "p2", symbol := PlayerSymbol.O, serverId := "Server1" }

/-- Scenario A's position just before the winning move: X on (0,0) and
(0,1), O on (1,0) and (1,1), X to move. -/
def boardScenA : Int → Int → Option PlayerSymbol := fun r c =>
  if r = 0 ∧ c = 0 then some PlayerSymbol.X
  else if r = 0 ∧ c = 1 then some PlayerSymbol.X
  else if r = 1 ∧ c = 0 then some PlayerSymbol.O
  else if r = 1 ∧ c = 1 then some PlayerSymbol.O
  else none

/-- The 3×3, k = 3 session holding Scenario A's position. -/
def gScenA : GameState :=
  { id := "g", boardSize := 3, board := boardScenA,
    status := GStatus.PLAYING, players := [playerP1, playerP2],
    winner := none, nextTurn := some PlayerSymbol.X,
    result := GResult.ONGOING, winningLine := none, winningLength := 3,
    createdAt := some 0, updatedAt := some 0 }

/-- The state after X completes the top row in Scenario A. -/
def gScenAFin : GameState := (gsMakeMove gScenA "p1" 0 2 9).getD gScenA

/-- The store after creating session "g" and joining p1 and p2. -/
def storeJoin2 : Store :=
  applySteps emptyStore
    [Step.create "g" 3 3 0,
     Step.join "g" "p1" none (some "Server1") 1,
     Step.join "g" "p2" none (some "Server1") 2]

/-- A one-player waiting store: session "g", only p1. -/
def storeJoin1 : Store :=
  applySteps emptyStore
    [Step.create "g" 3 3 0, Step.join "g" "p1" none (some "Server1") 1]

/-- The session registered in `storeJoin2`. -/
def gameJoin2 : GameState :=
  (lookupGame storeJoin2 "g").getD (mkGameState "" 0 0 0)

/-- C7's dangling-mapping scenario: p1 and p2 play; p1 leaves
explicitly (the whole-session reset evicts p2 from the roster but not
from the player → game mapping); p3 and p4 refill the session; p3
disconnects, which cancels the session into Finished; a later sweep
purges it. -/
def storeDangling : Store :=
  applySteps emptyStore
    [Step.create "g" 3 3 0,
     Step.join "g" "p1" none (some "Server1") 1,
     Step.join "g" "p2" none (some "Server1") 2,
     Step.gwLeaveStep "g" "p1" false 3,
     Step.join "g" "p3" none (some "Server1") 4,
     Step.join "g" "p4" none (some "Server1") 5,
     Step.gwDisconnectStep (some "g") "p3" false 6]

/-- A federation view with one live peer and an empty cache. -/
def fedPeer2 : FedState :=
  { serverId := "Server1", isFederated := true, peers := ["Server2"],
    cache := [] }

/-- The federation view of Scenario D: the availability cache holds one
one-player session "g7" on "Server2". -/
def fedScenD : FedState :=
  { serverId := "Server1", isFederated := true, peers := ["Server2"],
    cache := [("g7", { serverId := "Server2", gameId := "g7",
                       playerCount := 1 })] }

/-! ### Association-list lemmas -/

theorem lookupKV_setKV_self {α : Type} (l : List (String × α)) (k : String)
    (v : α) : lookupKV (setKV l k v) k = some v := by
  unfold setKV lookupKV
  by_cases h : l.any (fun kv => kv.1 = k)
  · simp only [h, if_true]
    induction l with
    | nil => simp at h
    | cons a l ih =>
      by_cases ha : a.1 = k
      · simp [List.find?, ha]
      · simp only [List.any_cons, ha, decide_eq_true_eq, false_or,
          Bool.false_or, decide_False] at h
        simp only [List.map_cons, if_neg ha, List.find?]
        rw [decide_eq_false ha]
        exact ih h
  · simp only [h, if_false]
    induction l with
    | nil => simp [List.find?]
    | cons a l ih =>
      have ha : ¬ a.1 = k := by
        intro hk
        exact h (by simp [List.any_cons, hk])
      have h₂ : ¬ l.any (fun kv => kv.1 = k) := by
        intro hk
        exact h (by simp [List.any_cons, hk])
      simp only [List.cons_append, List.find?]
      rw [decide_eq_false ha]
      exact ih h₂

theorem find?_map_setEntry {α : Type} (l : List (String × α))
    (k k₁ : String) (v : α) (hne : ¬ k₁ = k) :
    (l.map (fun kv => if kv.1 = k then (k, v) else kv)).find?
        (fun kv => kv.1 = k₁) =
      l.find? (fun kv => kv.1 = k₁) := by
  induction l with
  | nil => simp
  | cons a l ih =>
    by_cases ha : a.1 = k
    · have h₁ : ¬ (k : String) = k₁ := fun hc => hne hc.symm
      have h₂ : ¬ a.1 = k₁ := by rw [ha]; exact h₁
      simp only [List.map_cons, if_pos ha, List.find?]
      rw [decide_eq_false h₁, decide_eq_false h₂]
      exact ih
    · simp only [List.map_cons, if_neg ha, List.find?]
      cases hd : decide (a.1 = k₁)
      · exact ih
      · rfl

theorem find?_append_single {α : Type} (l : List (String × α))
    (k k₁ : String) (v : α) (hne : ¬ k₁ = k)
    (h : l.find? (fun kv => kv.1 = k₁) = none) :
    (l ++ [(k, v)]).find? (fun kv => kv.1 = k₁) = none := by
  induction l with
  | nil =>
    simp only [List.nil_append, List.find?]
    rw [decide_eq_false (fun hc : (k : String) = k₁ => hne hc.symm)]
  | cons a l ih =>
    simp only [List.find?] at h ⊢
    cases hd : decide (a.1 = k₁)
    · rw [hd] at h
      exact ih h
    · rw [hd] at h
      cases h

theorem find?_append_left {α : Type} (l : List (String × α)) (l₂ : List (String × α))
    (p : String × α → Bool) (x : String × α)
    (h : l.find? p = some x) : (l ++ l₂).find? p = some x := by
  induction l with
  | nil => cases h
  | cons a l ih =>
    simp only [List.find?] at h ⊢
    cases hd : p a
    · rw [hd] at h
      exact ih h
    · rw [hd] at h
      exact h

theorem lookupKV_setKV_ne {α : Type} (l : List (String × α))
    (k k₁ : String) (v : α) (hne : ¬ k₁ = k) :
    lookupKV (setKV l k v) k₁ = lookupKV l k₁ := by
  unfold setKV lookupKV
  by_cases h : l.any (fun kv => kv.1 = k)
  · rw [if_pos h, find?_map_setEntry l k k₁ v hne]
  · rw [if_neg h]
    cases hf : l.find? (fun kv => kv.1 = k₁) with
    | none => rw [find?_append_single l k k₁ v hne hf]
    | some x => rw [find?_append_left l [(k, v)] _ x hf]

theorem lookupKV_delKV_self {α : Type} (l : List (String × α)) (k : String) :
    lookupKV (delKV l k) k = none := by
  unfold delKV lookupKV
  induction l with
  | nil => simp
  | cons a l ih =>
    by_cases ha : a.1 = k
    · rw [List.filter_cons_of_neg (by simp [ha])]
      exact ih
    · rw [List.filter_cons_of_pos (by simp [ha]),
        List.find?_cons_of_neg _ (by simp [ha])]
      exact ih

theorem lookupKV_delKV_ne {α : Type} (l : List (String × α))
    (k k₁ : String) (hne : ¬ k₁ = k) :
    lookupKV (delKV l k) k₁ = lookupKV l k₁ := by
  unfold delKV lookupKV
  induction l with
  | nil => simp
  | cons a l ih =>
    by_cases ha : a.1 = k
    · have h₂ : ¬ a.1 = k₁ := by rw [ha]; exact fun hc => hne hc.symm
      rw [List.filter_cons_of_neg (by simp [ha]),
        List.find?_cons_of_neg _ (by simp [h₂])]
      exact ih
    · rw [List.filter_cons_of_pos (by simp [ha])]
      by_cases hak : a.1 = k₁
      · rw [List.find?_cons_of_pos _ (by simp [hak]),
          List.find?_cons_of_pos _ (by simp [hak])]
      · rw [List.find?_cons_of_neg _ (by simp [hak]),
          List.find?_cons_of_neg _ (by simp [hak])]
        exact ih

theorem mem_setKV {α : Type} {l : List (String × α)} {k : String} {v : α}
    {x : String × α} (hx : x ∈ setKV l k v) : x ∈ l ∨ x = (k, v) := by
  unfold setKV at hx
  by_cases h : l.any (fun kv => kv.1 = k)
  · rw [if_pos h] at hx
    rcases List.mem_map.mp hx with ⟨y, hy, hxy⟩
    by_cases hyk : y.1 = k
    · right
      rw [if_pos hyk] at hxy
      exact hxy.symm
    · left
      rw [if_neg hyk] at hxy
      exact hxy ▸ hy
  · rw [if_neg h] at hx
    rcases List.mem_append.mp hx with h₁ | h₁
    · left; exact h₁
    · right; simpa using h₁

theorem mem_delKV {α : Type} {l : List (String × α)} {k : String}
    {x : String × α} (hx : x ∈ delKV l k) : x ∈ l :=
  List.mem_of_mem_filter hx

/-! ### `findSome?` and walk lemmas -/

theorem findSome?_of_mem {α β : Type} (f : α → Option β) (l : List α)
    (x : α) (hx : x ∈ l) (y : β) (hy : f x = some y) :
    ∃ z : β, l.findSome? f = some z ∧ ∃ w ∈ l, f w = some z := by
  induction l with
  | nil => cases hx
  | cons a l ih =>
    cases hfa : f a with
    | some z =>
      refine ⟨z, ?_, a, List.mem_cons_self a l, hfa⟩
      rw [List.findSome?_cons, hfa]
    | none =>
      rcases List.mem_cons.mp hx with rfl | hx₁
      · rw [hfa] at hy
        cases hy
      · obtain ⟨z, hz, w, hw, hfw⟩ := ih hx₁
        refine ⟨z, ?_, w, List.mem_cons_of_mem a hw, hfw⟩
        rw [List.findSome?_cons, hfa, hz]

theorem walk_length_ge (board : Int → Int → Option PlayerSymbol) (n : Int)
    (sym : PlayerSymbol) (dr dc : Int) :
    ∀ (m fuel : Nat) (r c : Int), m ≤ fuel →
      (∀ j : Nat, j < m →
        0 ≤ r + (j : Int) * dr ∧ r + (j : Int) * dr < n ∧
        0 ≤ c + (j : Int) * dc ∧ c + (j : Int) * dc < n ∧
        board (r + (j : Int) * dr) (c + (j : Int) * dc) = some sym) →
      m ≤ (walk board n sym dr dc fuel r c).length := by
  intro m
  induction m with
  | zero => intro fuel r c _ _; exact Nat.zero_le _
  | succ m ih =>
    intro fuel r c hf h
    obtain ⟨fuel, rfl⟩ : ∃ f, fuel = f + 1 := by
      cases fuel with
      | zero => omega
      | succ f => exact ⟨f, rfl⟩
    have h0 := h 0 (Nat.succ_pos m)
    simp only [Nat.cast_zero, zero_mul, add_zero] at h0
    rw [walk, if_pos h0]
    simp only [List.length_cons, Nat.succ_le_succ_iff]
    refine ih fuel (r + dr) (c + dc) (by omega) ?_
    intro j hj
    have hjs := h (j + 1) (by omega)
    have e₁ : r + ((j : Int) + 1) * dr = r + dr + (j : Int) * dr := by ring
    have e₂ : c + ((j : Int) + 1) * dc = c + dc + (j : Int) * dc := by ring
    rw [Nat.cast_add, Nat.cast_one, e₁, e₂] at hjs
    exact hjs

/-! ### `makeMove` inversion -/

theorem gsMakeMove_isSome_iff (g : GameState) (playerId : String)
    (row col : Int) (now : Nat) :
    (gsMakeMove g playerId row col now).isSome =
      moveAllowedSpec g playerId row col := by
  unfold gsMakeMove moveAllowedSpec
  by_cases h₁ : g.status = GStatus.PLAYING ∧ g.result = GResult.ONGOING
  · rw [if_neg (not_not_intro h₁)]
    obtain ⟨h₁₁, h₁₂⟩ := h₁
    simp only [h₁₁, h₁₂, decide_True, Bool.true_and]
    cases hp : gsGetPlayer g playerId with
    | none => rfl
    | some p =>
      dsimp only
      by_cases h₂ : g.nextTurn = some p.symbol
      · rw [if_neg (not_not_intro h₂)]
        simp only [h₂, decide_True, Bool.true_and]
        by_cases h₃ : row < 0 ∨ (g.boardSize : Int) ≤ row ∨ col < 0 ∨
            (g.boardSize : Int) ≤ col ∨ (g.board row col).isSome
        · rw [if_pos h₃]
          cases hb : g.board row col with
          | none =>
            rw [hb] at h₃
            simp only [Option.isSome_none, Bool.false_eq_true, or_false] at h₃
            have hd : decide (0 ≤ row ∧ row < (g.boardSize : Int) ∧
                0 ≤ col ∧ col < (g.boardSize : Int)) = false := by
              rcases h₃ with h | h | h | h <;>
                exact decide_eq_false (fun hc => by
                  obtain ⟨a₁, a₂, a₃, a₄⟩ := hc; omega)
            rw [hd]
            rfl
          | some sv => simp [hb]
        · rw [if_neg h₃]
          push_neg at h₃
          obtain ⟨c₁, c₂, c₃, c₄, c₅⟩ := h₃
          have hb : (g.board row col).isNone = true := by
            cases hbv : g.board row col with
            | none => rfl
            | some sv => rw [hbv] at c₅; simp at c₅
          rw [decide_eq_true ⟨by omega, by omega, by omega, by omega⟩, hb]
          rfl
      · rw [if_pos h₂]
        rw [decide_eq_false h₂]
        rfl
  · rw [if_pos h₁]
    rcases Decidable.not_and_iff_or_not.mp h₁ with h | h
    · rw [decide_eq_false h]
      rfl
    · rw [decide_eq_false h]
      simp

theorem gsMakeMove_eq_some (g : GameState) (playerId : String)
    (row col : Int) (now : Nat) (g₁ : GameState)
    (h : gsMakeMove g playerId row col now = some g₁) :
    ∃ p, gsGetPlayer g playerId = some p ∧
      g.status = GStatus.PLAYING ∧ g.result = GResult.ONGOING ∧
      g.nextTurn = some p.symbol ∧
      0 ≤ row ∧ row < (g.boardSize : Int) ∧
      0 ≤ col ∧ col < (g.boardSize : Int) ∧
      g.board row col = none ∧
      g₁ = finishMove g p row col now := by
  unfold gsMakeMove at h
  by_cases h₁ : g.status = GStatus.PLAYING ∧ g.result = GResult.ONGOING
  · rw [if_neg (not_not_intro h₁)] at h
    cases hp : gsGetPlayer g playerId with
    | none => rw [hp] at h; cases h
    | some p =>
      rw [hp] at h
      dsimp only at h
      by_cases h₂ : g.nextTurn = some p.symbol
      · rw [if_neg (not_not_intro h₂)] at h
        by_cases h₃ : row < 0 ∨ (g.boardSize : Int) ≤ row ∨ col < 0 ∨
            (g.boardSize : Int) ≤ col ∨ (g.board row col).isSome
        · rw [if_pos h₃] at h
          cases h
        · rw [if_neg h₃] at h
          push_neg at h₃
          obtain ⟨c₁, c₂, c₃, c₄, c₅⟩ := h₃
          have hb : g.board row col = none := by
            cases hbv : g.board row col with
            | none => rfl
            | some sv => rw [hbv] at c₅; simp at c₅
          exact ⟨p, rfl, h₁.1, h₁.2, h₂, by omega, by omega, by omega, by omega,
            hb, (Option.some_inj.mp h).symm⟩
      · rw [if_pos h₂] at h
        cases h
  · rw [if_pos h₁] at h
    cases h

theorem finishMove_fields (g : GameState) (p : Player) (row col : Int)
    (now : Nat) :
    (finishMove g p row col now).board = (placeMove g p row col now).board ∧
    (finishMove g p row col now).nextTurn =
      (placeMove g p row col now).nextTurn ∧
    (finishMove g p row col now).players = g.players ∧
    (finishMove g p row col now).boardSize = g.boardSize ∧
    (finishMove g p row col now).winningLength = g.winningLength ∧
    (finishMove g p row col now).id = g.id ∧
    (finishMove g p row col now).updatedAt = some now := by
  unfold finishMove
  dsimp only
  split
  · exact ⟨rfl, rfl, rfl, rfl, rfl, rfl, rfl⟩
  · split
    · exact ⟨rfl, rfl, rfl, rfl, rfl, rfl, rfl⟩
    · exact ⟨rfl, rfl, rfl, rfl, rfl, rfl, rfl⟩

theorem placeMove_board_self (g : GameState) (p : Player) (row col : Int)
    (now : Nat) :
    (placeMove g p row col now).board row col = some p.symbol := by
  unfold placeMove
  simp

theorem placeMove_board_other (g : GameState) (p : Player) (row col : Int)
    (now : Nat) (r c : Int) (h : ¬ (r = row ∧ c = col)) :
    (placeMove g p row col now).board r c = g.board r c := by
  unfold placeMove
  simp only
  rw [if_neg h]

theorem placeMove_nextTurn (g : GameState) (p : Player) (row col : Int)
    (now : Nat) (h : g.nextTurn = some p.symbol) :
    (placeMove g p row col now).nextTurn = some p.symbol.other := by
  unfold placeMove
  cases hs : p.symbol with
  | X => simp only [h, hs, if_pos rfl]; rfl
  | O =>
    have hx : ¬ g.nextTurn = some PlayerSymbol.X := by
      rw [h, hs]
      intro hc
      cases hc
    simp only [hs, if_neg hx]
    rfl

/-! ### Claim C2 -/

/-- Claim C2: `makeMove` admits a move exactly when the spec's
precondition list holds (status Playing and result Ongoing, mover
present, mover's symbol equals the turn, coordinates in `[0, N)`,
target cell empty — checked in that order in the definition); on any
failure the service returns the invalid-move error with the store, and
hence the session, completely unchanged; on success the target cell is
set to the mover's symbol and the turn toggles exactly once to the
other symbol. -/
theorem C2_move_guard_behaviour :
    ∀ (g : GameState) (playerId : String) (row col : Int) (now : Nat),
      ((gsMakeMove g playerId row col now).isSome =
        moveAllowedSpec g playerId row col) ∧
      (∀ g₁, gsMakeMove g playerId row col now = some g₁ →
        ∃ p, gsGetPlayer g playerId = some p ∧
          g₁.board row col = some p.symbol ∧
          g₁.nextTurn = some p.symbol.other ∧
          (∀ r c : Int, ¬ (r = row ∧ c = col) → g₁.board r c = g.board r c)) ∧
      (∀ (s : Store) (gameId : String), lookupGame s gameId = some g →
        gsMakeMove g playerId row col now = none →
        svcMakeMove s gameId playerId row col now =
          (s, MoveRes.err "Invalid move")) := by
  intro g playerId row col now
  refine ⟨gsMakeMove_isSome_iff g playerId row col now, ?_, ?_⟩
  · intro g₁ hmv
    obtain ⟨p, hp, _, _, hturn, _, _, _, _, _, rfl⟩ :=
      gsMakeMove_eq_some g playerId row col now g₁ hmv
    obtain ⟨hb, hnt, -⟩ := finishMove_fields g p row col now
    refine ⟨p, hp, ?_, ?_, ?_⟩
    · rw [hb, placeMove_board_self]
    · rw [hnt, placeMove_nextTurn g p row col now hturn]
    · intro r c hrc
      rw [hb, placeMove_board_other g p row col now r c hrc]
  · intro s gameId hlk hmv
    unfold svcMakeMove
    rw [hlk]
    dsimp only
    rw [hmv]

/-- Concrete instantiation of C2: on the Scenario A position, the
pending move (0,2) by p1 is admitted by the precondition list, while
p2's out-of-turn attempt is rejected by the service with the store
untouched. -/
theorem C2_move_guard_behaviour_witness :
    (gsMakeMove gScenA "p1" 0 2 9).isSome = moveAllowedSpec gScenA "p1" 0 2 ∧
    svcMakeMove storeJoin2 "g" "p2" 0 0 9 =
      (storeJoin2, MoveRes.err "Invalid move") := by
  constructor
  · exact (C2_move_guard_behaviour gScenA "p1" 0 2 9).1
  · exact (C2_move_guard_behaviour gameJoin2 "p2" 0 0 9).2.2 storeJoin2 "g"
      rfl rfl

/-! ### Claim C1 -/

theorem lineThrough_length_ge (board : Int → Int → Option PlayerSymbol)
    (N : Nat) (sym : PlayerSymbol) (row col dr dc : Int) (a b : Nat)
    (ha : a ≤ N) (hb : b ≤ N)
    (hrun : ∀ j : Nat, j < a + b + 1 →
      0 ≤ row + ((j : Int) - (a : Int)) * dr ∧
      row + ((j : Int) - (a : Int)) * dr < (N : Int) ∧
      0 ≤ col + ((j : Int) - (a : Int)) * dc ∧
      col + ((j : Int) - (a : Int)) * dc < (N : Int) ∧
      board (row + ((j : Int) - (a : Int)) * dr)
            (col + ((j : Int) - (a : Int)) * dc) = some sym) :
    a + b + 1 ≤ (lineThrough board N sym row col dr dc).length := by
  have hpos : b ≤ (walk board (N : Int) sym dr dc N (row + dr) (col + dc)).length := by
    refine walk_length_ge board (N : Int) sym dr dc b N (row + dr) (col + dc) hb ?_
    intro j hj
    have hidx := hrun (a + 1 + j) (by omega)
    have e₁ : row + (((a + 1 + j : Nat) : Int) - (a : Int)) * dr
        = row + dr + (j : Int) * dr := by push_cast; ring
    have e₂ : col + (((a + 1 + j : Nat) : Int) - (a : Int)) * dc
        = col + dc + (j : Int) * dc := by push_cast; ring
    rw [e₁, e₂] at hidx
    exact hidx
  have hneg : a ≤ (walk board (N : Int) sym (-dr) (-dc) N (row - dr) (col - dc)).length := by
    refine walk_length_ge board (N : Int) sym (-dr) (-dc) a N (row - dr) (col - dc) ha ?_
    intro j hj
    have hidx := hrun (a - (j + 1)) (by omega)
    have e₁ : row + (((a - (j + 1) : Nat) : Int) - (a : Int)) * dr
        = row - dr + (j : Int) * (-dr) := by
      rw [Nat.cast_sub (by omega : j + 1 ≤ a)]
      push_cast
      ring
    have e₂ : col + (((a - (j + 1) : Nat) : Int) - (a : Int)) * dc
        = col - dc + (j : Int) * (-dc) := by
      rw [Nat.cast_sub (by omega : j + 1 ≤ a)]
      push_cast
      ring
    rw [e₁, e₂] at hidx
    exact hidx
  unfold lineThrough
  simp only [List.length_append, List.length_reverse, List.length_cons]
  omega

theorem checkDirection_eq_some (board : Int → Int → Option PlayerSymbol)
    (N k : Nat) (sym : PlayerSymbol) (row col : Int) (d : Int × Int)
    (h : k ≤ (lineThrough board N sym row col d.1 d.2).length) :
    checkDirection board N k sym row col d =
      some (lineThrough board N sym row col d.1 d.2) := by
  unfold checkDirection
  rw [if_pos h]

theorem checkDirection_inv (board : Int → Int → Option PlayerSymbol)
    (N k : Nat) (sym : PlayerSymbol) (row col : Int) (d : Int × Int)
    (z : List Int) (h : checkDirection board N k sym row col d = some z) :
    z = lineThrough board N sym row col d.1 d.2 ∧ k ≤ z.length := by
  unfold checkDirection at h
  by_cases hk : k ≤ (lineThrough board N sym row col d.1 d.2).length
  · rw [if_pos hk] at h
    exact ⟨(Option.some_inj.mp h).symm, (Option.some_inj.mp h) ▸ hk⟩
  · rw [if_neg hk] at h
    cases h

theorem finishMove_of_win (g : GameState) (p : Player) (row col : Int)
    (now : Nat) (sym : PlayerSymbol) (line : List Int)
    (hcw : checkWinWithLastMove (placeMove g p row col now).board
      g.boardSize g.winningLength row col = some (sym, line)) :
    finishMove g p row col now =
      { placeMove g p row col now with
        status := GStatus.FINISHED, result := GResult.WIN,
        winner := some sym, winningLine := some line } := by
  unfold finishMove
  dsimp only
  rw [hcw]

/-- Claim C1: for any board size and winning length with 3 ≤ k ≤ N, if
an accepted move leaves a maximal contiguous run of at least k cells of
one symbol through the placed cell in one of the four scanned line
directions, the session becomes Finished with result Win, the winner is
that symbol, and the winning line is the ascending-sorted linear
indices of the contiguous run the scan selected (a permutation of the
maximal run through the placed cell in one of the directions). -/
theorem C1_win_detection (g g₁ : GameState) (playerId : String)
    (row col : Int) (now : Nat)
    (h3k : 3 ≤ g.winningLength) (hkN : g.winningLength ≤ g.boardSize)
    (hmv : gsMakeMove g playerId row col now = some g₁)
    (d : Int × Int) (hd : d ∈ directions) (sym : PlayerSymbol) (a b : Nat)
    (hab : g.winningLength ≤ a + b + 1)
    (hrun : ∀ j : Nat, j < a + b + 1 →
      0 ≤ row + ((j : Int) - (a : Int)) * d.1 ∧
      row + ((j : Int) - (a : Int)) * d.1 < (g.boardSize : Int) ∧
      0 ≤ col + ((j : Int) - (a : Int)) * d.2 ∧
      col + ((j : Int) - (a : Int)) * d.2 < (g.boardSize : Int) ∧
      g₁.board (row + ((j : Int) - (a : Int)) * d.1)
               (col + ((j : Int) - (a : Int)) * d.2) = some sym) :
    g₁.status = GStatus.FINISHED ∧ g₁.result = GResult.WIN ∧
    g₁.winner = some sym ∧
    ∃ d₀ ∈ directions,
      g.winningLength ≤
        (lineThrough g₁.board g.boardSize sym row col d₀.1 d₀.2).length ∧
      g₁.winningLine =
        some (sortAsc (lineThrough g₁.board g.boardSize sym row col d₀.1 d₀.2)) ∧
      List.Sorted (fun x y : Int => x ≤ y)
        (sortAsc (lineThrough g₁.board g.boardSize sym row col d₀.1 d₀.2)) ∧
      (sortAsc (lineThrough g₁.board g.boardSize sym row col d₀.1 d₀.2)).Perm
        (lineThrough g₁.board g.boardSize sym row col d₀.1 d₀.2) := by
  obtain ⟨p, hp, hst, hres, hturn, c₁, c₂, c₃, c₄, hbnone, hfin⟩ :=
    gsMakeMove_eq_some g playerId row col now g₁ hmv
  obtain ⟨hbd, -, -, -, -, -, -⟩ := finishMove_fields g p row col now
  have hbd₁ : g₁.board = (placeMove g p row col now).board := by
    rw [hfin]; exact hbd
  -- the placed cell carries the run's symbol
  obtain ⟨hc₁, hc₂, hc₃, hc₄, hcc⟩ := hrun a (by omega)
  have eRow : row + ((a : Int) - (a : Int)) * d.1 = row := by ring
  have eCol : col + ((a : Int) - (a : Int)) * d.2 = col := by ring
  rw [eRow] at hc₁ hc₂ hcc
  rw [eCol] at hc₃ hc₄ hcc
  -- bound the run arms by the board size, per direction
  have hd₄ := hd
  have habN : a ≤ g.boardSize ∧ b ≤ g.boardSize := by
    obtain ⟨e₁, e₂, e₃, e₄, -⟩ := hrun 0 (by omega)
    obtain ⟨f₁, f₂, f₃, f₄, -⟩ := hrun (a + b) (by omega)
    simp only [directions, List.mem_cons, List.not_mem_nil, or_false] at hd₄
    push_cast at e₁ e₂ e₃ e₄ f₁ f₂ f₃ f₄
    rcases hd₄ with rfl | rfl | rfl | rfl <;>
      simp only [Prod.fst, Prod.snd, mul_zero, mul_one, add_zero,
        mul_neg, mul_neg_one] at e₁ e₂ e₃ e₄ f₁ f₂ f₃ f₄ <;>
      exact ⟨by omega, by omega⟩
  -- the run reaches the winning length for direction d
  have hlen : g.winningLength ≤
      (lineThrough g₁.board g.boardSize sym row col d.1 d.2).length := by
    have := lineThrough_length_ge g₁.board g.boardSize sym row col d.1 d.2
      a b habN.1 habN.2 hrun
    omega
  -- hence the scan returns a line
  have hcd := checkDirection_eq_some g₁.board g.boardSize g.winningLength sym
    row col d hlen
  obtain ⟨z, hfind, w, hw, hfw⟩ :=
    findSome?_of_mem
      (checkDirection g₁.board g.boardSize g.winningLength sym row col)
      directions d hd _ hcd
  obtain ⟨hz, hzlen⟩ := checkDirection_inv g₁.board g.boardSize g.winningLength
    sym row col w z hfw
  have hcw : checkWinWithLastMove g₁.board g.boardSize g.winningLength row col
      = some (sym, sortAsc z) := by
    unfold checkWinWithLastMove
    rw [hcc]
    dsimp only
    rw [hfind]
  -- the move ends in the win branch
  have hg₁ : g₁ = { placeMove g p row col now with
      status := GStatus.FINISHED, result := GResult.WIN,
      winner := some sym, winningLine := some (sortAsc z) } := by
    rw [hbd₁] at hcw
    rw [hfin, finishMove_of_win g p row col now sym (sortAsc z) hcw]
  have hwl : g₁.winningLine = some (sortAsc z) := by rw [hg₁]
  refine ⟨by rw [hg₁], by rw [hg₁], by rw [hg₁], w, hw, ?_, ?_, ?_, ?_⟩
  · rw [← hz]
    exact hzlen
  · rw [hwl, hz]
  · exact List.sorted_insertionSort (fun x y : Int => x ≤ y) _
  · exact List.perm_insertionSort (fun x y : Int => x ≤ y) _

/-- Concrete instantiation of C1 (Scenario A of the spec): on a 3×3
board with k = 3, X holding (0,0) and (0,1) plays (0,2); the session
finishes with result Win, winner X, winning line [0, 1, 2]. -/
theorem C1_win_detection_witness :
    gsMakeMove gScenA "p1" 0 2 9 = some gScenAFin ∧
    gScenAFin.status = GStatus.FINISHED ∧ gScenAFin.result = GResult.WIN ∧
    gScenAFin.winner = some PlayerSymbol.X ∧
    gScenAFin.winningLine = some [0, 1, 2] := by
  have h := C1_win_detection gScenA gScenAFin "p1" 0 2 9 (by decide) (by decide)
    rfl (0, 1) (by decide) PlayerSymbol.X 2 0 (by decide) (by decide)
  exact ⟨rfl, h.1, h.2.1, h.2.2.1, by decide⟩


/-! ### Claim C3 -/

theorem lookupKV_mem {α : Type} (l : List (String × α)) (k : String) (v : α)
    (h : lookupKV l k = some v) : ∃ kv ∈ l, kv.2 = v := by
  unfold lookupKV at h
  cases hf : l.find? (fun kv => kv.1 = k) with
  | none => rw [hf] at h; cases h
  | some kv =>
    rw [hf] at h
    exact ⟨kv, List.mem_of_find?_eq_some hf, Option.some_inj.mp h⟩

theorem gsAddPlayer_length (g : GameState) (p : Player) (now : Nat)
    (g₁ : GameState) (h : gsAddPlayer g p now = some g₁) :
    g₁.players.length = g.players.length + 1 ∧ ¬ g.players.length = 2 := by
  unfold gsAddPlayer gsIsFull at h
  split at h
  case isTrue hfull => cases h
  case isFalse hfull =>
    have hlen : ¬ g.players.length = 2 := fun hc => hfull (by simp [hc])
    split at h
    · cases h
    · dsimp only at h
      split at h
      · refine ⟨?_, hlen⟩
        rw [← Option.some_inj.mp h]
        simp [addedPlayers]
      · refine ⟨?_, hlen⟩
        rw [← Option.some_inj.mp h]
        simp [addedPlayers]

theorem gsMakeMove_players (g : GameState) (playerId : String) (row col : Int)
    (now : Nat) (g₁ : GameState)
    (h : gsMakeMove g playerId row col now = some g₁) :
    g₁.players = g.players := by
  obtain ⟨p, -, -, -, -, -, -, -, -, -, rfl⟩ :=
    gsMakeMove_eq_some g playerId row col now g₁ h
  exact (finishMove_fields g p row col now).2.2.1

theorem addPlayerCore_players_cap (s : Store) (gameId : String)
    (game : GameState) (playerId : String) (pref : Option PlayerSymbol)
    (srv : Option String) (now : Nat)
    (hs : ∀ kv ∈ s.games, kv.2.players.length ≤ 2)
    (hg : game.players.length ≤ 2) :
    ∀ kv ∈ (addPlayerCore s gameId game playerId pref srv now).1.games,
      kv.2.players.length ≤ 2 := by
  unfold addPlayerCore
  dsimp only
  cases hadd : gsAddPlayer game
      { id := playerId, symbol := pref.getD PlayerSymbol.X,
        serverId := srv.getD "unknown" } now with
  | none => exact hs
  | some game₁ =>
    dsimp only
    intro kv hkv
    rcases mem_setKV hkv with hmem | rfl
    · exact hs kv hmem
    · obtain ⟨hlen, hne⟩ := gsAddPlayer_length game _ now game₁ hadd
      dsimp only
      omega

theorem removePlayerFromGame_players_cap (s : Store) (playerId : String)
    (now : Nat) (hs : ∀ kv ∈ s.games, kv.2.players.length ≤ 2) :
    ∀ kv ∈ (removePlayerFromGame s playerId now).1.games,
      kv.2.players.length ≤ 2 := by
  unfold removePlayerFromGame
  cases hp : lookupP2G s playerId with
  | none => exact hs
  | some gameId =>
    dsimp only
    cases hg : lookupGame s gameId with
    | none => exact hs
    | some game =>
      dsimp only
      intro kv hkv
      rcases mem_setKV hkv with hmem | rfl
      · exact hs kv hmem
      · obtain ⟨kv₀, hkv₀, hv⟩ := lookupKV_mem s.games gameId game hg
        have hb := hs kv₀ hkv₀
        rw [hv] at hb
        unfold gsRemovePlayer
        dsimp only
        calc (game.players.filter (fun p => ¬ p.id = playerId)).length
            ≤ game.players.length := List.length_filter_le _ _
          _ ≤ 2 := hb

theorem addPlayerToGame_players_cap (s : Store) (gameId playerId : String)
    (pref : Option PlayerSymbol) (srv : Option String) (now : Nat)
    (hs : ∀ kv ∈ s.games, kv.2.players.length ≤ 2) :
    ∀ kv ∈ (addPlayerToGame s gameId playerId pref srv now).1.games,
      kv.2.players.length ≤ 2 := by
  unfold addPlayerToGame
  cases hg : lookupGame s gameId with
  | none => exact hs
  | some game =>
    dsimp only
    have hglen : game.players.length ≤ 2 := by
      obtain ⟨kv₀, hkv₀, hv⟩ := lookupKV_mem s.games gameId game hg
      rw [← hv]
      exact hs kv₀ hkv₀
    by_cases hfin : game.status = GStatus.FINISHED
    · rw [if_pos hfin]
      exact hs
    · rw [if_neg hfin]
      cases hp : lookupP2G s playerId with
      | none =>
        exact addPlayerCore_players_cap s gameId game playerId pref srv now hs
          hglen
      | some existingGameId =>
        intro kv hkv
        split at hkv
        · split at hkv
          · split at hkv
            · exact hs kv hkv
            · exact addPlayerCore_players_cap
                { games := s.games,
                  playerToGame := delKV s.playerToGame playerId }
                gameId game playerId pref srv now hs hglen kv hkv
          · exact hs kv hkv
        · rename_i heq
          cases heq

theorem cleanupGo_players_cap (cutoff : Nat) :
    ∀ (rest : List (String × GameState)) (acc : Store) (cnt : Nat),
      (∀ kv ∈ acc.games, kv.2.players.length ≤ 2) →
      ∀ kv ∈ (cleanupGo cutoff acc cnt rest).1.games,
        kv.2.players.length ≤ 2 := by
  intro rest
  induction rest with
  | nil => intro acc cnt hacc; exact hacc
  | cons e rest ih =>
    intro acc cnt hacc
    unfold cleanupGo
    split
    · refine ih _ _ ?_
      intro kv hkv
      exact hacc kv (mem_delKV hkv)
    · exact ih acc cnt hacc

theorem cleanupClient_players_cap (s : Store) (tracked : Option String)
    (playerId : String) (fedA : Bool) (now : Nat)
    (hs : ∀ kv ∈ s.games, kv.2.players.length ≤ 2) :
    ∀ kv ∈ (cleanupClient s tracked playerId fedA now).1.games,
      kv.2.players.length ≤ 2 := by
  have hrem := removePlayerFromGame_players_cap s playerId now hs
  unfold cleanupClient
  cases tracked with
  | none => exact hs
  | some gameId =>
    dsimp only
    cases hr2 : (removePlayerFromGame s playerId now).2 with
    | none => exact hrem
    | some foundGid =>
      dsimp only
      cases hg : lookupGame (removePlayerFromGame s playerId now).1 foundGid with
      | none => exact hrem
      | some g₁ =>
        dsimp only
        by_cases hst : g₁.status = GStatus.PLAYING
        · rw [if_pos hst]
          intro kv hkv
          dsimp only at hkv
          rcases mem_setKV hkv with hmem | rfl
          · exact hrem kv hmem
          · obtain ⟨kv₀, hkv₀, hv⟩ :=
              lookupKV_mem (removePlayerFromGame s playerId now).1.games
                foundGid g₁ hg
            dsimp only
            rw [← hv]
            exact hrem kv₀ hkv₀
        · rw [if_neg hst]
          exact hrem

theorem gwLeave_players_cap (s : Store) (gameId playerId : String)
    (fedA : Bool) (now : Nat)
    (hs : ∀ kv ∈ s.games, kv.2.players.length ≤ 2) :
    ∀ kv ∈ (gwLeave s gameId playerId fedA now).1.games,
      kv.2.players.length ≤ 2 := by
  have h₁ := removePlayerFromGame_players_cap s playerId now hs
  unfold gwLeave
  dsimp only
  split
  · cases hg : lookupGame (removePlayerFromGame s playerId now).1 gameId with
    | some g₁ =>
      dsimp only
      refine cleanupClient_players_cap _ _ _ _ _ ?_
      intro kv hkv
      rcases mem_setKV hkv with hmem | rfl
      · exact h₁ kv hmem
      · simp [resetGame]
    | none => exact cleanupClient_players_cap _ _ _ _ _ h₁
  · exact cleanupClient_players_cap _ _ _ _ _ h₁

theorem applyStep_players_cap (s : Store) (st : Step)
    (hs : ∀ kv ∈ s.games, kv.2.players.length ≤ 2) :
    ∀ kv ∈ (applyStep s st).games, kv.2.players.length ≤ 2 := by
  cases st with
  | create gid n k now =>
    simp only [applyStep]
    unfold createGame
    intro kv hkv
    rcases mem_setKV hkv with hmem | rfl
    · exact hs kv hmem
    · simp [mkGameState]
  | join gid pid pref srv now =>
    simp only [applyStep]
    exact addPlayerToGame_players_cap s gid pid pref srv now hs
  | moveStep gid pid row col now =>
    simp only [applyStep]
    unfold svcMakeMove
    cases hg : lookupGame s gid with
    | none => exact hs
    | some game =>
      dsimp only
      cases hm : gsMakeMove game pid row col now with
      | none => exact hs
      | some game₁ =>
        dsimp only
        intro kv hkv
        rcases mem_setKV hkv with hmem | rfl
        · exact hs kv hmem
        · obtain ⟨kv₀, hkv₀, hv⟩ := lookupKV_mem s.games gid game hg
          dsimp only
          rw [gsMakeMove_players game pid row col now game₁ hm, ← hv]
          exact hs kv₀ hkv₀
  | leaveSvc pid now =>
    simp only [applyStep]
    exact removePlayerFromGame_players_cap s pid now hs
  | sweep cutoff =>
    simp only [applyStep]
    unfold cleanupFinishedGames
    exact cleanupGo_players_cap cutoff s.games s 0 hs
  | gwLeaveStep gid pid fedA now =>
    simp only [applyStep]
    exact gwLeave_players_cap s gid pid fedA now hs
  | gwDisconnectStep tracked pid fedA now =>
    simp only [applyStep]
    unfold gwDisconnect
    exact cleanupClient_players_cap s tracked pid fedA now hs

theorem applySteps_players_cap (ops : List Step) :
    ∀ s : Store, (∀ kv ∈ s.games, kv.2.players.length ≤ 2) →
      ∀ kv ∈ (applySteps s ops).games, kv.2.players.length ≤ 2 := by
  induction ops with
  | nil => intro s hs; exact hs
  | cons st ops ih =>
    intro s hs
    exact ih (applyStep s st) (applyStep_players_cap s st hs)

/-- Claim C3: in every reachable store state every session has at most
two players; `addPlayer` against a session that already has two
players always fails, and the service-level join of a player not
already mapped to that session returns an error and leaves the session
table (hence the session's board, turn and roster) unchanged. -/
theorem C3_player_cap :
    (∀ s : Store, ReachableStore s →
      ∀ kv ∈ s.games, kv.2.players.length ≤ 2) ∧
    (∀ (g : GameState) (p : Player) (now : Nat),
      g.players.length = 2 → gsAddPlayer g p now = none) ∧
    (∀ (s : Store) (gameId playerId : String) (pref : Option PlayerSymbol)
       (srv : Option String) (now : Nat) (g : GameState),
      lookupGame s gameId = some g → g.players.length = 2 →
      ¬ lookupP2G s playerId = some gameId →
      ((addPlayerToGame s gameId playerId pref srv now).2.isSome = true ∧
       (addPlayerToGame s gameId playerId pref srv now).1.games = s.games)) := by
  refine ⟨?_, ?_, ?_⟩
  · rintro s ⟨ops, rfl⟩
    exact applySteps_players_cap ops emptyStore (by intro kv hkv; cases hkv)
  · intro g p now hfull
    unfold gsAddPlayer
    rw [if_pos (by simp [gsIsFull, hfull])]
  · intro s gameId playerId pref srv now g hg hfull hmap
    have hnone : ∀ p : Player, gsAddPlayer g p now = none := by
      intro p
      unfold gsAddPlayer
      rw [if_pos (by simp [gsIsFull, hfull])]
    have hcore : ∀ s₁ : Store,
        addPlayerCore s₁ gameId g playerId pref srv now =
          (s₁, some "Unable to add player to game") := by
      intro s₁
      unfold addPlayerCore
      dsimp only
      rw [hnone _]
    unfold addPlayerToGame
    rw [hg]
    dsimp only
    by_cases hfin : g.status = GStatus.FINISHED
    · rw [if_pos hfin]
      exact ⟨rfl, rfl⟩
    · rw [if_neg hfin]
      cases hp : lookupP2G s playerId with
      | none =>
        show (addPlayerCore s gameId g playerId pref srv now).2.isSome = true ∧
          (addPlayerCore s gameId g playerId pref srv now).1.games = s.games
        rw [hcore s]
        exact ⟨rfl, rfl⟩
      | some existingGameId =>
        have hne : ¬ existingGameId = gameId := by
          intro hc
          exact hmap (hc ▸ hp)
        split
        · rename_i e heq
          injection heq with heq₁
          subst heq₁
          rw [if_pos hne]
          split
          · exact ⟨rfl, rfl⟩
          · rw [hcore ⟨s.games, delKV s.playerToGame playerId⟩]
            exact ⟨rfl, rfl⟩
        · rw [hcore s]
          exact ⟨rfl, rfl⟩

/-- Concrete instantiation of C3: the two-player session of
`storeJoin2` is reachable and capped at two players, and a third
player's join attempt is rejected without touching the session table. -/
theorem C3_player_cap_witness :
    gameJoin2.players.length ≤ 2 ∧
    gsAddPlayer gameJoin2
      { id := "p3", symbol := PlayerSymbol.X, serverId := "Server1" } 7 =
        none ∧
    (addPlayerToGame storeJoin2 "g" "p3" none none 7).2.isSome = true ∧
    (addPlayerToGame storeJoin2 "g" "p3" none none 7).1.games =
      storeJoin2.games := by
  refine ⟨?_, ?_, ?_, ?_⟩
  · have h := C3_player_cap.1 storeJoin2
      ⟨[Step.create "g" 3 3 0,
        Step.join "g" "p1" none (some "Server1") 1,
        Step.join "g" "p2" none (some "Server1") 2], rfl⟩
    obtain ⟨kv₀, hkv₀, hv⟩ := lookupKV_mem storeJoin2.games "g" gameJoin2 rfl
    rw [← hv]
    exact h kv₀ hkv₀
  · exact C3_player_cap.2.1 gameJoin2
      { id := "p3", symbol := PlayerSymbol.X, serverId := "Server1" } 7
      (by decide)
  · exact (C3_player_cap.2.2 storeJoin2 "g" "p3" none none 7 gameJoin2
      rfl (by decide) (by decide)).1
  · exact (C3_player_cap.2.2 storeJoin2 "g" "p3" none none 7 gameJoin2
      rfl (by decide) (by decide)).2

/-! ### Claim C5 -/

theorem gsAddPlayer_eq_some (g : GameState) (p : Player) (now : Nat)
    (g₁ : GameState) (h : gsAddPlayer g p now = some g₁) :
    ¬ g.players.length = 2 ∧ gsHasPlayer g p.id = false ∧
    g₁.players = addedPlayers g p := by
  unfold gsAddPlayer gsIsFull at h
  split at h
  case isTrue hfull => cases h
  case isFalse hfull =>
    split at h
    case isTrue hhas => cases h
    case isFalse hhas =>
      dsimp only at h
      refine ⟨fun hc => hfull (by simp [hc]), by simpa using hhas, ?_⟩
      split at h <;> rw [← Option.some_inj.mp h]

theorem assignSymbol_indep (g : GameState) (hlen : g.players.length ≤ 1)
    (p : Player) (σ₁ σ₂ : PlayerSymbol) :
    assignSymbol g { p with symbol := σ₁ } =
      assignSymbol g { p with symbol := σ₂ } := by
  unfold assignSymbol
  by_cases hX : g.players.any (fun q => q.symbol = PlayerSymbol.X) = true
  · rw [if_neg (not_not_intro hX), if_neg (not_not_intro hX)]
    by_cases hO : g.players.any (fun q => q.symbol = PlayerSymbol.O) = true
    · exfalso
      rcases List.any_eq_true.mp hX with ⟨q₁, hq₁, hs₁⟩
      rcases List.any_eq_true.mp hO with ⟨q₂, hq₂, hs₂⟩
      cases hpl : g.players with
      | nil => rw [hpl] at hq₁; cases hq₁
      | cons a l =>
        cases l with
        | nil =>
          rw [hpl] at hq₁ hq₂
          have e₁ : q₁ = a := by simpa using hq₁
          have e₂ : q₂ = a := by simpa using hq₂
          rw [e₁] at hs₁
          rw [e₂] at hs₂
          simp only [decide_eq_true_eq] at hs₁ hs₂
          rw [hs₁] at hs₂
          cases hs₂
        | cons b l₂ => rw [hpl] at hlen; simp at hlen
    · rw [if_pos hO, if_pos hO]
  · rw [if_pos hX, if_pos hX]

/-- C5 as stated is false at a concrete input: the very first joiner of
a fresh session prefers O, O is unclaimed (the session is empty), yet
the assigned symbol is X, not the preference. -/
theorem C5_counterexample :
    ((lookupGame (addPlayerToGame (createGame emptyStore "g" 3 3 0) "g" "p1"
        (some PlayerSymbol.O) (some "Server1") 1).1 "g").map
      (fun g => g.players.map (fun p => p.symbol))) = some [PlayerSymbol.X] ∧
    ¬ PlayerSymbol.X = PlayerSymbol.O := ⟨by decide, by decide⟩

/-- Claim C5, amended: symbol assignment is purely positional — the
first joiner of a session gets X and the second gets O — and the
preferred symbol never influences the assignment (for any session with
at most one player, the assigned symbols are identical whatever the
preference). -/
theorem C5_symbol_assignment_amended :
    (∀ (g : GameState) (p : Player) (now : Nat) (g₁ : GameState),
      g.players = [] → gsAddPlayer g p now = some g₁ →
      g₁.players.map (fun q => q.symbol) = [PlayerSymbol.X]) ∧
    (∀ (g : GameState) (q p : Player) (now : Nat) (g₁ : GameState),
      g.players = [q] → q.symbol = PlayerSymbol.X →
      gsAddPlayer g p now = some g₁ →
      g₁.players.map (fun r => r.symbol) = [PlayerSymbol.X, PlayerSymbol.O]) ∧
    (∀ (g : GameState) (p : Player) (σ₁ σ₂ : PlayerSymbol) (now : Nat),
      g.players.length ≤ 1 →
      (gsAddPlayer g { p with symbol := σ₁ } now).map
        (fun h => h.players.map (fun q => q.symbol)) =
      (gsAddPlayer g { p with symbol := σ₂ } now).map
        (fun h => h.players.map (fun q => q.symbol))) := by
  refine ⟨?_, ?_, ?_⟩
  · intro g p now g₁ hpl hadd
    obtain ⟨-, -, hpl₁⟩ := gsAddPlayer_eq_some g p now g₁ hadd
    rw [hpl₁]
    unfold addedPlayers assignSymbol
    rw [hpl]
    simp
  · intro g q p now g₁ hpl hq hadd
    obtain ⟨-, -, hpl₁⟩ := gsAddPlayer_eq_some g p now g₁ hadd
    rw [hpl₁]
    unfold addedPlayers assignSymbol
    rw [hpl]
    simp [hq]
  · intro g p σ₁ σ₂ now hlen
    have hsym : addedPlayers g { p with symbol := σ₁ } =
        addedPlayers g { p with symbol := σ₂ } := by
      unfold addedPlayers
      rw [assignSymbol_indep g hlen p σ₁ σ₂]
    unfold gsAddPlayer
    simp only [hsym]

/-- Concrete instantiation of the amended C5: in `storeJoin1` /
`storeJoin2` the first joiner got X and the second O, and on the empty
session the assignment is the same for both possible preferences. -/
theorem C5_symbol_assignment_amended_witness :
    gameJoin2.players.map (fun r => r.symbol) =
      [PlayerSymbol.X, PlayerSymbol.O] ∧
    (gsAddPlayer (mkGameState "g" 3 3 0)
        { id := "p1", symbol := PlayerSymbol.O, serverId := "s" } 1).map
      (fun h => h.players.map (fun q => q.symbol)) =
    (gsAddPlayer (mkGameState "g" 3 3 0)
        { id := "p1", symbol := PlayerSymbol.X, serverId := "s" } 1).map
      (fun h => h.players.map (fun q => q.symbol)) := by
  constructor
  · exact C5_symbol_assignment_amended.2.1
      ((lookupGame storeJoin1 "g").getD (mkGameState "" 0 0 0)) playerP1
      { id := "p2", symbol := PlayerSymbol.X, serverId := "Server1" } 2
      gameJoin2 (by decide) (by decide) rfl
  · exact C5_symbol_assignment_amended.2.2 (mkGameState "g" 3 3 0)
      { id := "p1", symbol := PlayerSymbol.O, serverId := "s" }
      PlayerSymbol.O PlayerSymbol.X 1 (by decide)

/-! ### Claim C6 -/

/-- Claim C6 is violated by the code: `createGame(3, 1)` stores a
session with `winningLength = 1`, breaking the data-model bound
3 ≤ k ≤ N, because the constructor writes the private backing field
directly and never runs the clamping setter (shown alongside: the
setter would have clamped the same value to 3). -/
theorem C6_winning_length_unclamped :
    ((lookupGame (createGame emptyStore "g" 3 1 0) "g").map
      (fun g => g.winningLength)) = some 1 ∧
    ¬ 3 ≤ (1 : Nat) ∧
    (setWinningLength (mkGameState "g" 3 1 0) 1).winningLength = 3 :=
  ⟨by decide, by decide, by decide⟩

/-! ### Claim C4 -/

/-- C4 as stated is false at a concrete input: a PlayerJoined gossip
event from a remote origin is merely acknowledged — the named session's
roster does not gain the player and the store is untouched — whereas
the corresponding local join would add the player. -/
theorem C4_counterexample :
    handleFederationMessage storeJoin1 fedPeer2 "Server2" "Server2"
      (FedEvent.playerJoined "p2" PlayerSymbol.O "g") 5 =
      ((storeJoin1, fedPeer2), []) ∧
    ((lookupGame storeJoin1 "g").map (fun g => gsHasPlayer g "p2")) =
      some false ∧
    ((lookupGame (addPlayerToGame storeJoin1 "g" "p2" (some PlayerSymbol.O)
        (some "Server2") 5).1 "g").map (fun g => gsHasPlayer g "p2")) =
      some true := by
  refine ⟨rfl, by decide, by decide⟩

/-- Claim C4, amended: on receipt of a gossip event whose originServer
differs from the local server identifier, a Move is applied through the
store's move operation and a PlayerLeft through the store's player
removal, and nothing is re-broadcast to peers; a PlayerJoined, however,
is only acknowledged (logged) — it is not applied to the local store. -/
theorem C4_federation_apply_amended (s : Store) (f : FedState)
    (origin fromSrv playerId gameId : String) (sym : PlayerSymbol)
    (row col : Int) (now : Nat) (h : ¬ origin = f.serverId) :
    handleFederationMessage s f origin fromSrv
      (FedEvent.playerJoined playerId sym gameId) now = ((s, f), []) ∧
    handleFederationMessage s f origin fromSrv
      (FedEvent.moveEv playerId row col gameId) now =
      (((svcMakeMove s gameId playerId row col now).1, f), []) ∧
    handleFederationMessage s f origin fromSrv
      (FedEvent.playerLeft playerId gameId) now =
      (((removePlayerFromGame s playerId now).1, f), []) := by
  refine ⟨?_, ?_, ?_⟩ <;>
    · unfold handleFederationMessage
      rw [if_neg h]

/-- Concrete instantiation of the amended C4. -/
theorem C4_federation_apply_amended_witness :
    ¬ "Server2" = fedPeer2.serverId ∧
    handleFederationMessage storeJoin1 fedPeer2 "Server2" "Server2"
      (FedEvent.playerJoined "p9" PlayerSymbol.O "g") 5 =
      ((storeJoin1, fedPeer2), []) :=
  ⟨by decide,
   (C4_federation_apply_amended storeJoin1 fedPeer2 "Server2" "Server2"
      "p9" "g" PlayerSymbol.O 0 0 5 (by decide)).1⟩

/-! ### Claim C8 -/

/-- C8 as stated is false at a concrete input: federation is active
with one live peer and a local join just completed the pair, so the
snapshot of one-player sessions is empty — the gateway's broadcast then
consists of the PlayerJoined message only, with no AvailableGames
message to any peer. -/
theorem C8_counterexample :
    broadcastPlayerJoined storeJoin2 fedPeer2 "p2" PlayerSymbol.O (some "g") =
      [("Server2",
        FedMsg.playerJoined "p2" PlayerSymbol.O "Server1" "g" "Server1")] ∧
    (broadcastPlayerJoined storeJoin2 fedPeer2 "p2" PlayerSymbol.O
        (some "g")).all (fun pm => !pm.2.isAvailMsg) = true ∧
    isFederationActive fedPeer2 = true ∧
    availSnapshot storeJoin2 fedPeer2.serverId = [] :=
  ⟨by decide, by decide, by decide, by decide⟩

/-- Claim C8, amended: whenever federation is active with at least one
live peer, a local join triggers a PlayerJoined broadcast to every
live peer, and an AvailableGames broadcast of the current snapshot of
local one-player active sessions to every live peer whenever that
snapshot is non-empty; when the snapshot is empty, no AvailableGames
message is sent at all. -/
theorem C8_join_broadcast_amended (s : Store) (f : FedState)
    (playerId : String) (sym : PlayerSymbol) (gameId : Option String)
    (hf : f.isFederated = true) (hp : ¬ f.peers.length = 0) :
    (∀ peer ∈ f.peers,
      (peer, FedMsg.playerJoined playerId sym f.serverId (gameId.getD "")
        f.serverId) ∈ broadcastPlayerJoined s f playerId sym gameId) ∧
    (¬ availSnapshot s f.serverId = [] →
      ∀ peer ∈ f.peers,
        (peer, FedMsg.availableGames (availSnapshot s f.serverId) f.serverId
          f.serverId) ∈ broadcastPlayerJoined s f playerId sym gameId) ∧
    (availSnapshot s f.serverId = [] →
      ∀ pm ∈ broadcastPlayerJoined s f playerId sym gameId,
        pm.2.isAvailMsg = false) := by
  have hguard : ¬ (¬ f.isFederated = true ∨ f.peers.length = 0) := by
    intro hc
    rcases hc with hc | hc
    · exact hc hf
    · exact hp hc
  unfold broadcastPlayerJoined broadcastAvailableGames
    broadcastFederationMessage
  rw [if_neg hguard, if_neg (not_not_intro hf)]
  refine ⟨?_, ?_, ?_⟩
  · intro peer hpeer
    exact List.mem_append_left _ (List.mem_map_of_mem _ hpeer)
  · intro hne peer hpeer
    rw [if_neg (fun hc : (availSnapshot s f.serverId).length = 0 =>
      hne (List.length_eq_zero.mp hc)), if_neg hguard,
      if_neg (not_not_intro hf)]
    exact List.mem_append_right _ (List.mem_map_of_mem _ hpeer)
  · intro he pm hpm
    rw [he, if_neg hguard] at hpm
    simp only [List.length_nil, List.append_nil] at hpm
    simp at hpm
    rcases hpm with ⟨peer, -, rfl⟩
    rfl

/-- Concrete instantiation of the amended C8: with a one-player waiting
session present, the snapshot is non-empty and the AvailableGames
message does reach the peer. -/
theorem C8_join_broadcast_amended_witness :
    fedPeer2.isFederated = true ∧ ¬ fedPeer2.peers.length = 0 ∧
    ¬ availSnapshot storeJoin1 fedPeer2.serverId = [] ∧
    ("Server2", FedMsg.availableGames (availSnapshot storeJoin1 "Server1")
        "Server1" "Server1") ∈
      broadcastPlayerJoined storeJoin1 fedPeer2 "p1" PlayerSymbol.X
        (some "g") := by
  refine ⟨rfl, by decide, by decide, ?_⟩
  exact (C8_join_broadcast_amended storeJoin1 fedPeer2 "p1" PlayerSymbol.X
    (some "g") rfl (by decide)).2.1 (by decide) "Server2" (by decide)

/-! ### Claim C9 -/

/-- Claim C9 (Scenario D): if the local store has no Waiting/Playing
session with 0 or 1 players, federation is active, and the
availability cache holds exactly the one-player entry for session "g7"
on "Server2", then `findAvailableGame` returns the literal
"redirect:Server2:g7". -/
theorem C9_federation_redirect (s : Store) (f : FedState)
    (hlocal : ∀ g ∈ getActiveGames s,
      ¬ (g.players.length = 0 ∨ g.players.length = 1))
    (hact : isFederationActive f = true)
    (hcache : f.cache =
      [("g7", { serverId := "Server2", gameId := "g7", playerCount := 1 })]) :
    findAvailableGame s (some f) = some "redirect:Server2:g7" := by
  unfold findAvailableGame
  dsimp only
  have h1 : (getActiveGames s).filter (fun g => g.players.length = 1) = [] := by
    rw [List.filter_eq_nil_iff]
    intro g hg
    simp only [decide_eq_true_eq]
    exact fun hc => hlocal g hg (Or.inr hc)
  have h0 : (getActiveGames s).filter (fun g => g.players.length = 0) = [] := by
    rw [List.filter_eq_nil_iff]
    intro g hg
    simp only [decide_eq_true_eq]
    exact fun hc => hlocal g hg (Or.inl hc)
  rw [h1, h0]
  dsimp only [List.head?]
  rw [if_pos hact, hcache]
  rfl

/-- Concrete instantiation of C9: the empty store plus the Scenario D
cache yields the redirect string. -/
theorem C9_federation_redirect_witness :
    findAvailableGame emptyStore (some fedScenD) =
      some "redirect:Server2:g7" :=
  C9_federation_redirect emptyStore fedScenD (by decide) rfl rfl

/-! ### Claim C7 -/

theorem foldl_delKV (players : List Player) :
    ∀ m : List (String × String),
      players.foldl (fun acc p => delKV acc p.id) m =
        m.filter (fun kv => ¬ players.any (fun p => p.id = kv.1)) := by
  induction players with
  | nil => intro m; simp
  | cons p ps ih =>
    intro m
    simp only [List.foldl_cons]
    rw [ih (delKV m p.id)]
    unfold delKV
    rw [List.filter_filter]
    refine List.filter_congr ?_
    intro kv hkv
    by_cases h₁ : p.id = kv.1 <;>
      by_cases h₂ : ps.any (fun q => q.id = kv.1) = true <;>
      simp [h₁, h₂]
    all_goals exact fun hc => h₁ hc.symm

theorem cleanupGo_games (cutoff : Nat) :
    ∀ (rest : List (String × GameState)) (acc : Store) (cnt : Nat),
      (cleanupGo cutoff acc cnt rest).1.games =
        acc.games.filter (fun kv =>
          ¬ rest.any (fun e => sweepable e.2 cutoff && e.1 = kv.1)) := by
  intro rest
  induction rest with
  | nil => intro acc cnt; simp [cleanupGo]
  | cons e rest ih =>
    intro acc cnt
    unfold cleanupGo
    by_cases hsw : sweepable e.2 cutoff = true
    · rw [if_pos hsw]
      rw [ih]
      dsimp only
      unfold delKV
      rw [List.filter_filter]
      refine List.filter_congr ?_
      intro kv hkv
      by_cases h₁ : e.1 = kv.1 <;>
        by_cases h₂ : rest.any
          (fun e => sweepable e.2 cutoff && e.1 = kv.1) = true <;>
        simp [h₁, h₂, hsw]
      all_goals exact fun hc => h₁ hc.symm
    · rw [if_neg hsw]
      rw [ih]
      refine List.filter_congr ?_
      intro kv hkv
      simp [hsw]

theorem cleanupGo_p2g (cutoff : Nat) :
    ∀ (rest : List (String × GameState)) (acc : Store) (cnt : Nat),
      (cleanupGo cutoff acc cnt rest).1.playerToGame =
        acc.playerToGame.filter (fun m =>
          ¬ rest.any (fun e => sweepable e.2 cutoff &&
            e.2.players.any (fun p => p.id = m.1))) := by
  intro rest
  induction rest with
  | nil => intro acc cnt; simp [cleanupGo]
  | cons e rest ih =>
    intro acc cnt
    unfold cleanupGo
    by_cases hsw : sweepable e.2 cutoff = true
    · rw [if_pos hsw]
      rw [ih]
      dsimp only
      rw [foldl_delKV]
      rw [List.filter_filter]
      refine List.filter_congr ?_
      intro m hm
      by_cases h₁ : e.2.players.any (fun p => p.id = m.1) = true <;>
        by_cases h₂ : rest.any (fun e => sweepable e.2 cutoff &&
          e.2.players.any (fun p => p.id = m.1)) = true <;>
        simp [h₁, h₂, hsw]
    · rw [if_neg hsw]
      rw [ih]
      refine List.filter_congr ?_
      intro m hm
      simp [hsw]

/-- Claim C7, amended: for every TTL cutoff, the sweep removes exactly
the sessions that are Finished and stale (provided the session map has
no duplicate keys, as a JavaScript `Map` guarantees), and it removes
exactly the player-to-session mappings whose player is still on the
roster of some swept session.  A mapping of a player evicted from the
roster earlier (by the explicit-leave whole-session reset) is not
removed and can remain dangling. -/
theorem C7_sweep_amended (s : Store) (cutoff : Nat)
    (hnd : (s.games.map (fun kv => kv.1)).Nodup) :
    (cleanupFinishedGames s cutoff).1.games =
      s.games.filter (fun kv => ¬ sweepable kv.2 cutoff) ∧
    (cleanupFinishedGames s cutoff).1.playerToGame =
      s.playerToGame.filter (fun m =>
        ¬ s.games.any (fun kv => sweepable kv.2 cutoff &&
          kv.2.players.any (fun p => p.id = m.1))) := by
  constructor
  · unfold cleanupFinishedGames
    rw [cleanupGo_games cutoff s.games s 0]
    refine List.filter_congr ?_
    intro kv hkv
    by_cases hsw : sweepable kv.2 cutoff = true
    · have hany : s.games.any
          (fun e => sweepable e.2 cutoff && e.1 = kv.1) = true :=
        List.any_eq_true.mpr ⟨kv, hkv, by simp [hsw]⟩
      simp [hany, hsw]
    · have hany : ¬ s.games.any
          (fun e => sweepable e.2 cutoff && e.1 = kv.1) = true := by
        intro hc
        rcases List.any_eq_true.mp hc with ⟨e, he, hce⟩
        simp only [Bool.and_eq_true, decide_eq_true_eq] at hce
        obtain ⟨hsw₂, hkey⟩ := hce
        have hek : e = kv :=
          List.inj_on_of_nodup_map hnd he hkv hkey
        rw [hek] at hsw₂
        exact hsw hsw₂
      simp [hany, hsw]
  · unfold cleanupFinishedGames
    exact cleanupGo_p2g cutoff s.games s 0

/-- Concrete instantiation of the amended C7 on the dangling scenario's
store. -/
theorem C7_sweep_amended_witness :
    (storeDangling.games.map (fun kv => kv.1)).Nodup ∧
    (cleanupFinishedGames storeDangling 100).1.playerToGame =
      storeDangling.playerToGame.filter (fun m =>
        ¬ storeDangling.games.any (fun kv => sweepable kv.2 100 &&
          kv.2.players.any (fun p => p.id = m.1))) :=
  ⟨by decide, (C7_sweep_amended storeDangling 100 (by decide)).2⟩

/-- C7 as stated is false on a reachable store: session "g" is swept
(Finished and stale), yet after the sweep p2's mapping still points at
the purged "g" — p2 had been evicted from the roster by the
explicit-leave reset without its mapping being cleared, so a dangling
mapping remains. -/
theorem C7_counterexample :
    ReachableStore storeDangling ∧
    ((lookupGame storeDangling "g").map (fun g => sweepable g 100)) =
      some true ∧
    lookupP2G (cleanupFinishedGames storeDangling 100).1 "p2" = some "g" ∧
    (lookupGame (cleanupFinishedGames storeDangling 100).1 "g").isNone =
      true := by
  refine ⟨⟨[Step.create "g" 3 3 0,
      Step.join "g" "p1" none (some "Server1") 1,
      Step.join "g" "p2" none (some "Server1") 2,
      Step.gwLeaveStep "g" "p1" false 3,
      Step.join "g" "p3" none (some "Server1") 4,
      Step.join "g" "p4" none (some "Server1") 5,
      Step.gwDisconnectStep (some "g") "p3" false 6], rfl⟩,
    by decide, by decide, by decide⟩

/-! ### Claim C10 -/

/-- Claim C10: for a Playing session, an explicit Leave resets the
session to Waiting with the board cleared and the whole roster evicted
and broadcasts the reset Update, whereas an abrupt disconnect instead
marks the session Finished with result left Ongoing and sends a
GameCancelled message to the remaining opponent; the two paths always
produce these two distinct outcomes. -/
theorem C10_leave_vs_disconnect (s : Store) (gid : String) (g : GameState)
    (p q : Player) (fedA : Bool) (now : Nat)
    (hmap : lookupP2G s p.id = some gid)
    (hg : lookupGame s gid = some g)
    (hst : g.status = GStatus.PLAYING)
    (hpl : g.players = [p, q])
    (hqp : ¬ q.id = p.id) :
    (∃ g₁, lookupGame (gwLeave s gid p.id fedA now).1 gid = some g₁ ∧
      g₁.status = GStatus.WAITING ∧ g₁.players = [] ∧
      (∀ r c : Int, g₁.board r c = none) ∧
      GwEvent.update gid (getStateSummary g₁) ∈
        (gwLeave s gid p.id fedA now).2) ∧
    (∃ g₂, lookupGame (gwDisconnect s (some gid) p.id fedA now).1 gid =
        some g₂ ∧
      g₂.status = GStatus.FINISHED ∧ g₂.result = GResult.ONGOING ∧
      g₂.players = [q] ∧
      GwEvent.gameCancelled q.id g₂.id
          "Opponent disconnected. Returning to lobby." ∈
        (gwDisconnect s (some gid) p.id fedA now).2) := by
  have hrem : removePlayerFromGame s p.id now =
      ({ games := setKV s.games gid (gsRemovePlayer g p.id now),
         playerToGame := delKV s.playerToGame p.id }, some gid) := by
    unfold removePlayerFromGame
    rw [hmap]
    dsimp only
    rw [hg]
  have hplayers : (gsRemovePlayer g p.id now).players = [q] := by
    unfold gsRemovePlayer
    dsimp only
    rw [hpl]
    simp [hqp]
  have hstP : (gsRemovePlayer g p.id now).status = GStatus.PLAYING := hst
  have hl : lookupGame
      ({ games := setKV s.games gid (gsRemovePlayer g p.id now),
         playerToGame := delKV s.playerToGame p.id } : Store) gid =
      some (gsRemovePlayer g p.id now) :=
    lookupKV_setKV_self s.games gid _
  constructor
  · -- explicit leave
    have hl₂ : lookupGame
        ({ games := setKV
             (setKV s.games gid (gsRemovePlayer g p.id now)) gid
             (resetGame (gsRemovePlayer g p.id now)),
           playerToGame := delKV s.playerToGame p.id } : Store) gid =
        some (resetGame (gsRemovePlayer g p.id now)) :=
      lookupKV_setKV_self _ gid _
    have hlp2 : lookupP2G
        ({ games := setKV
             (setKV s.games gid (gsRemovePlayer g p.id now)) gid
             (resetGame (gsRemovePlayer g p.id now)),
           playerToGame := delKV s.playerToGame p.id } : Store) p.id =
        none :=
      lookupKV_delKV_self s.playerToGame p.id
    have hA : gwLeave s gid p.id fedA now =
        ({ games := setKV
             (setKV s.games gid (gsRemovePlayer g p.id now)) gid
             (resetGame (gsRemovePlayer g p.id now)),
           playerToGame := delKV s.playerToGame p.id },
         ([GwEvent.update gid
             (getStateSummary (resetGame (gsRemovePlayer g p.id now)))] ++
          (if fedA then [GwEvent.fedPlayerLeft p.id gid] else []) ++
          ([GwEvent.update gid
             (getStateSummary (resetGame (gsRemovePlayer g p.id now)))] ++
           (if fedA then [GwEvent.fedPlayerLeft p.id gid] else [])))) := by
      unfold gwLeave
      dsimp only
      rw [hg]
      dsimp only
      rw [hrem]
      dsimp only
      rw [if_pos ⟨by simp [hst], rfl⟩]
      rw [hl]
      dsimp only
      unfold broadcastUpdate cleanupClient
      dsimp only
      rw [hl₂]
      unfold removePlayerFromGame
      rw [hlp2]
      dsimp only
      unfold broadcastUpdate
      rw [hl₂]
    refine ⟨resetGame (gsRemovePlayer g p.id now), ?_, rfl, rfl,
      fun r c => rfl, ?_⟩
    · rw [hA]
      exact hl₂
    · rw [hA]
      exact List.mem_append_left _ (List.mem_append_left _
        (List.mem_cons_self _ _))
  · -- abrupt disconnect
    have hB : gwDisconnect s (some gid) p.id fedA now =
        ({ games := setKV
             (setKV s.games gid (gsRemovePlayer g p.id now)) gid
             { gsRemovePlayer g p.id now with
               status := GStatus.FINISHED, result := GResult.ONGOING },
           playerToGame := delKV s.playerToGame p.id },
         [GwEvent.gameCancelled q.id (gsRemovePlayer g p.id now).id
            "Opponent disconnected. Returning to lobby."] ++
          (if fedA then [GwEvent.fedPlayerLeft p.id gid] else [])) := by
      unfold gwDisconnect cleanupClient
      dsimp only
      rw [hrem]
      dsimp only
      rw [hl]
      try dsimp only
      rw [if_pos hstP]
      try dsimp only
      rw [hplayers]
      rfl
    refine ⟨{ gsRemovePlayer g p.id now with
        status := GStatus.FINISHED, result := GResult.ONGOING },
      ?_, rfl, rfl, hplayers, ?_⟩
    · rw [hB]
      exact lookupKV_setKV_self _ gid _
    · rw [hB]
      exact List.mem_append_left _ (List.mem_cons_self _ _)

/-- Concrete instantiation of C10 on the two-player session of
`storeJoin2`: p1's explicit leave leaves "g" Waiting, while p1's
disconnect leaves "g" Finished/Ongoing with p2 as the remaining
rostered player. -/
theorem C10_leave_vs_disconnect_witness :
    ((lookupGame (gwLeave storeJoin2 "g" playerP1.id false 9).1 "g").map
      (fun g => g.status)) = some GStatus.WAITING ∧
    ((lookupGame (gwDisconnect storeJoin2 (some "g") playerP1.id false 9).1
        "g").map
      (fun g => (g.status, g.result, g.players.map (fun r => r.id)))) =
      some (GStatus.FINISHED, GResult.ONGOING, ["p2"]) := by
  obtain ⟨⟨g₁, hA₁, hA₂, -, -, -⟩, ⟨g₂, hB₁, hB₂, hB₃, hB₄, -⟩⟩ :=
    C10_leave_vs_disconnect storeJoin2 "g" gameJoin2 playerP1 playerP2 false 9
      (by decide) rfl (by decide) (by decide) (by decide)
  constructor
  · rw [hA₁]
    simp [hA₂]
  · rw [hB₁]
    simp [hB₂, hB₃, hB₄, playerP2]
